import Mathlib

/-!
# Formal model of the react-three-chess rule engine

This file is a shallow embedding, in Lean 4, of the chess rule engine of the
react-three-chess repository (the module exporting `makeGame`, `updatePiece`,
`getEnPassantPiece`, `getPieceAtPosition`, `getVulnerabilities`, `isVulnerable`,
`canCastle`, `getValidMoves`, `isInCheck`, `isValidMove` and `PIECE_NAMES`).

Modelling conventions:

* JavaScript numbers that the engine uses as integers (piece ids, coordinates,
  move counters) are modelled as `Int`.
* A JavaScript function that can throw a `TypeError` on some inputs (for
  example `updatePiece` when no piece with the given id exists, so that
  `oldPiece` is `undefined` and a later field access throws) is modelled as an
  `Option`-returning function, with `none` meaning "the call throws".
* `game.prevState` is an optional field.  The engine always strips the nested
  `prevState` field before storing a snapshot (`delete prevState.prevState`),
  so a stored snapshot is a record with only `pieces` and `moveCount`; it is
  modelled by the separate structure `GameCore`.
* Object spread updates such as `{...piece, moveCount: piece.moveCount + n}`
  are modelled by Lean structure-update syntax.
* `JSON.stringify(a) === JSON.stringify(b)` on engine-produced states is
  modelled as structural (decidable) equality of the corresponding Lean values.

The main typed model covers states whose pieces are well-formed records (the
shape every engine-produced state has).  A second, raw model of dynamically
typed JSON values is introduced further below for the structural-validation
behaviour of `isValidMove` on malformed client-submitted states.
-/

/-- Piece colors: `'white'` or `'black'` in the source. -/
inductive Color where
  | white
  | black
deriving DecidableEq, Repr

/-- The six recognized piece types (the values of `shortToType` and
`PIECE_NAMES` in the source). -/
inductive PieceType where
  | pawn
  | knight
  | bishop
  | rook
  | queen
  | king
deriving DecidableEq, Repr

/-- A chess piece: `{id, type, moveCount, color, coord}` in the source.
`coord` is the `[file, rank]` pair. -/
structure Piece where
  id : Int
  type : PieceType
  color : Color
  coord : Int × Int
  moveCount : Int
deriving DecidableEq, Repr

/-- A game snapshot with its own `prevState` stripped: exactly what
`updatePiece` stores in the `prevState` field of the state it returns
(`const prevState = {...game}; delete prevState.prevState`). -/
structure GameCore where
  pieces : List Piece
  moveCount : Int
deriving DecidableEq, Repr

/-- A game state: `{pieces, moveCount, prevState?}` in the source.  The
`prevState` field is absent at game start and holds a stripped snapshot after
each `updatePiece`. -/
structure Game where
  pieces : List Piece
  moveCount : Int
  prevState : Option GameCore
deriving DecidableEq, Repr

/-- The 8x8 board literal of `createPieces`, row by row; `' '` is an empty
square. -/
def boardLayout : List Char :=
  ['R', 'N', 'B', 'K', 'Q', 'B', 'N', 'R',
   'P', 'P', 'P', 'P', 'P', 'P', 'P', 'P',
   ' ', ' ', ' ', ' ', ' ', ' ', ' ', ' ',
   ' ', ' ', ' ', ' ', ' ', ' ', ' ', ' ',
   ' ', ' ', ' ', ' ', ' ', ' ', ' ', ' ',
   ' ', ' ', ' ', ' ', ' ', ' ', ' ', ' ',
   'P', 'P', 'P', 'P', 'P', 'P', 'P', 'P',
   'R', 'N', 'B', 'K', 'Q', 'B', 'N', 'R']

/-- The `shortToType` lookup table of `createPieces`; characters not in the
table (in particular `' '`) map to `undefined`, modelled as `none`. -/
def shortToType (c : Char) : Option PieceType :=
  match c with
  | 'R' => some .rook
  | 'N' => some .knight
  | 'P' => some .pawn
  | 'K' => some .king
  | 'B' => some .bishop
  | 'Q' => some .queen
  | _ => none

/-- `createPieces`: maps each board index `i` to a piece record with
`id = i`, `moveCount = 0`, color black above row 4 and white otherwise, and
`coord = [i % 8, Math.floor(i / 8)]`, then filters out the squares whose
`type` is `undefined`.  The source's map-then-filter over the board is a
`filterMap` over the indexed board entries. -/
def createPieces : List Piece :=
  boardLayout.enum.filterMap (fun it =>
    (shortToType it.2).map (fun ty =>
      { id := (it.1 : Int)
        type := ty
        moveCount := 0
        color := if it.1 / 8 > 4 then Color.black else Color.white
        coord := ((it.1 % 8 : Nat), (it.1 / 8 : Nat)) }))

/-- `makeGame`: fresh game, no `prevState` field. -/
def makeGame : Game :=
  { pieces := createPieces
    moveCount := 0
    prevState := none }

/-- `getPieceAtPosition(game, x, y)` returns
`game.pieces.filter(p => p.coord[0] === x && p.coord[1] === y)[0]`.  The
source reads `.pieces` from whichever state object it is given (a full game
state or a stored `prevState` snapshot), so the model takes the pieces list
itself. -/
def getPieceAtPosition (pieces : List Piece) (x y : Int) : Option Piece :=
  (pieces.filter (fun p => p.coord.1 == x && p.coord.2 == y)).head?

/-- `getDirection(game, piece)`: +1 for white, -1 for black.  The `game`
argument is unused in the source; it is kept for signature fidelity. -/
def getDirection (_game : Game) (piece : Piece) : Int :=
  if piece.color = Color.white then 1 else -1

/-- `getEnPassantPiece(game, piece, x, y)`: for a pawn, when `game.prevState`
exists, returns the piece currently at `(x, y - direction)` provided the
square `(x, y + direction)` held, in `prevState`, an opposite-colored pawn
with the same id; otherwise returns `undefined` (modelled as `none`). -/
def getEnPassantPiece (game : Game) (piece : Piece) (x y : Int) : Option Piece :=
  match game.prevState with
  | some prevSt =>
    if piece.type = PieceType.pawn then
      let direction := getDirection game piece
      let cur := getPieceAtPosition game.pieces x (y - direction)
      let prev := getPieceAtPosition prevSt.pieces x (y + direction)
      match cur, prev with
      | some c, some pv =>
        if c.id = pv.id ∧ pv.type = PieceType.pawn ∧ pv.color ≠ piece.color then
          some c
        else
          none
      | _, _ => none
    else
      none
  | none => none

/-- `updatePiece(game, piece, moveCount = 1)`.  Locates the old record of the
piece by id (`none` models the `TypeError` the source throws when it is
missing, since `oldPiece` is then `undefined` and is dereferenced
unconditionally), snapshots the current state with `prevState` stripped, and
takes the castling, en passant, or normal branch.  In the castling branch the
corresponding rook is also looked up; `none` models the throw when no rook
matches.  Note `!x.moveCount` on an integer move counter is `x.moveCount = 0`.
-/
def updatePiece (game : Game) (piece : Piece) (moveCount : Int := 1) : Option Game :=
  match game.pieces.find? (fun x => x.id == piece.id) with
  | none => none
  | some oldPiece =>
    let didCastle :=
      piece.type = PieceType.king ∧ (piece.coord.1 - oldPiece.coord.1).natAbs = 2
    let prevState : GameCore := { pieces := game.pieces, moveCount := game.moveCount }
    let enPassantPiece := getEnPassantPiece game oldPiece piece.coord.1 piece.coord.2
    if didCastle then
      let oldDir := (piece.coord.1 - oldPiece.coord.1).sign
      match game.pieces.find? (fun x =>
          x.type == PieceType.rook &&
          x.color == piece.color &&
          x.coord.2 == piece.coord.2 &&
          x.moveCount == 0 &&
          (x.coord.1 - oldPiece.coord.1).sign == oldDir) with
      | none => none
      | some rook =>
        let pieces := game.pieces.filter (fun x =>
          (x.coord.1 != piece.coord.1 || x.coord.2 != piece.coord.2) &&
          x.id != piece.id &&
          x.id != rook.id)
        let pieces := pieces ++
          [{ piece with moveCount := piece.moveCount + moveCount },
           { rook with
              moveCount := rook.moveCount + moveCount
              coord := (oldPiece.coord.1 + oldDir, piece.coord.2) }]
        some { pieces := pieces
               moveCount := game.moveCount + moveCount
               prevState := some prevState }
    else
      match enPassantPiece with
      | some ep =>
        let pieces := game.pieces.filter (fun x =>
          x.id != piece.id && x.id != ep.id)
        let pieces := pieces ++ [{ piece with moveCount := piece.moveCount + moveCount }]
        some { pieces := pieces
               moveCount := game.moveCount + moveCount
               prevState := some prevState }
      | none =>
        let pieces := game.pieces.filter (fun x =>
          (x.coord.1 != piece.coord.1 || x.coord.2 != piece.coord.2) &&
          x.id != piece.id)
        let pieces := pieces ++ [{ piece with moveCount := piece.moveCount + moveCount }]
        some { pieces := pieces
               moveCount := game.moveCount + moveCount
               prevState := some prevState }

/-! ## Move enumeration

`getValidMoves(game, piece, attacksOnly)` builds its result by calling the
local closure `makeAttack(x, y)` on candidate squares.  `makeAttack` pushes
the square when it is in bounds, not occupied by a friendly piece, and — in
`attacksOnly` mode — occupied by an opposite-colored piece, or — in normal
mode — when simulating the move via `updatePiece` and `isInCheck` shows it
would not leave the mover's own king in check.  It returns `true` exactly
when the square is in bounds and not friendly-occupied (this return value
controls whether a sliding ray continues).

The `attacksOnly` closure never calls `updatePiece` or `isInCheck`, so the
attack-mode enumeration is defined first as the non-recursive function
`getValidMovesA`; check detection (`isInCheck`) is built from it; and the
normal-mode enumeration `getValidMovesN`, whose simulations use `isInCheck`,
comes after.  `getValidMoves` itself dispatches on the `attacksOnly` flag.
Normal mode is `Option`-valued because a simulation can throw (for example
when the moved piece's id is absent, or the simulated state has pieces but
no king of the mover's color). -/

/-- The in-bounds test of `makeAttack`: `x >= 0 && y >= 0 && x < 8 && y < 8`. -/
def inBoundsB (x y : Int) : Bool :=
  0 ≤ x && 0 ≤ y && x < 8 && y < 8

/-- The friendly-fire test of `makeAttack`:
`hitPiece && hitPiece.color === piece.color`. -/
def hittingFriendlyB (game : Game) (piece : Piece) (x y : Int) : Bool :=
  match getPieceAtPosition game.pieces x y with
  | some hit => hit.color == piece.color
  | none => false

/-- Attack-mode `makeAttack(x, y)`: returns the list of squares pushed (empty
or the singleton `[x, y]`) together with the boolean the closure returns. -/
def makeAttackA (game : Game) (piece : Piece) (x y : Int) :
    List (Int × Int) × Bool :=
  if inBoundsB x y && !hittingFriendlyB game piece x y then
    (match getPieceAtPosition game.pieces x y with
     | some hit => if hit.color != piece.color then [(x, y)] else []
     | none => [],
     true)
  else
    ([], false)

/-- One direction of `makeAngleAttack` in attack mode: starting from
`(x, y)`, repeatedly step by `(dx, dy)`, call `makeAttack`, stop when it
returns false or when the square is occupied.  The `fuel` argument models the
loop bound `max`; for `max = Infinity` the caller passes fuel 9, which is
exact because a run of consecutive in-bounds squares along a ray with a
nonzero unit step has length at most 8, after which `makeAttack` returns
false and the source loop breaks. -/
def rayA (game : Game) (piece : Piece) (dx dy : Int) :
    Nat → Int → Int → List (Int × Int)
  | 0, _, _ => []
  | fuel + 1, x, y =>
    match makeAttackA game piece (x + dx) (y + dy) with
    | step =>
      if !step.2 then step.1
      else if (getPieceAtPosition game.pieces (x + dx) (y + dy)).isSome then step.1
      else step.1 ++ rayA game piece dx dy fuel (x + dx) (y + dy)

/-- The step directions `makeAngleAttack(8, 0)` produces: for
`i = 0, ..., 7`, the pair of signs of the rounded cosine and sine of
`i * 2 * PI / 8` (the eight unit compass directions, starting east, counter
clockwise). -/
def dirs8 : List (Int × Int) :=
  [(1, 0), (1, 1), (0, 1), (-1, 1), (-1, 0), (-1, -1), (0, -1), (1, -1)]

/-- The step directions `makeAngleAttack(4, 0)` produces (rounded cosine and
sine of `i * 2 * PI / 4`): the four orthogonal directions. -/
def dirs4 : List (Int × Int) :=
  [(1, 0), (0, 1), (-1, 0), (0, -1)]

/-- The step directions `makeAngleAttack(4, PI / 4)` produces (rounded cosine
and sine of `i * 2 * PI / 4 + PI / 4`): the four diagonal directions. -/
def dirs4Diag : List (Int × Int) :=
  [(1, 1), (-1, 1), (-1, -1), (1, -1)]

/-- Attack-mode `makeAngleAttack`: rays in each direction, appended in
direction order.  `fuel` is 9 for `max = Infinity` (see `rayA`) and 1 for the
king's `max = 1`. -/
def makeAngleAttackA (game : Game) (piece : Piece)
    (dirs : List (Int × Int)) (fuel : Nat) : List (Int × Int) :=
  dirs.flatMap (fun d => rayA game piece d.1 d.2 fuel piece.coord.1 piece.coord.2)

/-- Attack-mode pawn branch of `getValidMoves`: diagonal captures (or
en-passant-eligible diagonals) and forward moves, in source push order.  In
attack mode the forward squares are unoccupied when attempted, so
`makeAttackA` pushes nothing for them, but the calls are kept to mirror the
source. -/
def pawnMovesA (game : Game) (piece : Piece) : List (Int × Int) :=
  let direction := getDirection game piece
  let forward := (piece.coord.1, piece.coord.2 + direction)
  let forward2 := (piece.coord.1, piece.coord.2 + 2 * direction)
  let left := (piece.coord.1 - 1, piece.coord.2 + direction)
  let right := (piece.coord.1 + 1, piece.coord.2 + direction)
  let leftPiece := getPieceAtPosition game.pieces left.1 left.2
  let rightPiece := getPieceAtPosition game.pieces right.1 right.2
  let forwardPiece := getPieceAtPosition game.pieces forward.1 forward.2
  let forwardPiece2 := getPieceAtPosition game.pieces forward2.1 forward2.2
  (match leftPiece with
   | some lp =>
     if lp.color != piece.color then (makeAttackA game piece left.1 left.2).1 else []
   | none =>
     if (getEnPassantPiece game piece left.1 left.2).isSome then
       (makeAttackA game piece left.1 left.2).1
     else []) ++
  (match rightPiece with
   | some rp =>
     if rp.color != piece.color then (makeAttackA game piece right.1 right.2).1 else []
   | none =>
     if (getEnPassantPiece game piece right.1 right.2).isSome then
       (makeAttackA game piece right.1 right.2).1
     else []) ++
  (if forwardPiece.isNone then
     (makeAttackA game piece forward.1 forward.2).1 ++
     (if forwardPiece2.isNone && piece.moveCount == 0 then
        (makeAttackA game piece forward2.1 forward2.2).1
      else [])
   else [])

/-- Attack-mode knight branch: the two offset pairs `[1, 2]` and `[2, 1]`,
each tried with the four sign combinations, in source order. -/
def knightMovesA (game : Game) (piece : Piece) : List (Int × Int) :=
  ([(1, 2), (2, 1)] : List (Int × Int)).flatMap (fun pr =>
    (makeAttackA game piece (piece.coord.1 + pr.1) (piece.coord.2 + pr.2)).1 ++
    (makeAttackA game piece (piece.coord.1 - pr.1) (piece.coord.2 + pr.2)).1 ++
    (makeAttackA game piece (piece.coord.1 + pr.1) (piece.coord.2 - pr.2)).1 ++
    (makeAttackA game piece (piece.coord.1 - pr.1) (piece.coord.2 - pr.2)).1)

/-- `getValidMoves(game, piece, true)`: attack-only enumeration.  The castling
`forEach` over rooks is guarded by `!attacksOnly`, so in attack mode the king
contributes only its eight single-step rays.  Unknown piece types cannot occur
in the typed model (the source's if/else chain would yield `[]`). -/
def getValidMovesA (game : Game) (piece : Piece) : List (Int × Int) :=
  match piece.type with
  | .pawn => pawnMovesA game piece
  | .queen => makeAngleAttackA game piece dirs8 9
  | .rook => makeAngleAttackA game piece dirs4 9
  | .bishop => makeAngleAttackA game piece dirs4Diag 9
  | .king => makeAngleAttackA game piece dirs8 1
  | .knight => knightMovesA game piece

/-- `getVulnerabilities(game, piece)`: the opposite-colored pieces whose
attack-only move set contains the target piece's square. -/
def getVulnerabilities (game : Game) (piece : Piece) : List Piece :=
  game.pieces.filter (fun x =>
    x.color != piece.color &&
    (getValidMovesA game x).any (fun m =>
      m.1 == piece.coord.1 && m.2 == piece.coord.2))

/-- `isVulnerable(game, piece)`: some opposite-colored piece attacks the
target's square. -/
def isVulnerable (game : Game) (piece : Piece) : Bool :=
  (getVulnerabilities game piece).length > 0

/-- `isInCheck(game, color)`: vulnerability of that color's king.  When no
king of the color exists the source passes `undefined` to `isVulnerable`; the
filter inside `getVulnerabilities` then throws on its first element, so the
call throws unless `game.pieces` is empty, in which case the filter is empty
and the result is `false`. -/
def isInCheck (game : Game) (color : Color) : Option Bool :=
  match game.pieces.find? (fun x => x.color == color && x.type == PieceType.king) with
  | some king => some (isVulnerable game king)
  | none => if game.pieces.isEmpty then some false else none

/-- The non-recursive prefix of `canCastle`'s conjunction: both pieces are an
unmoved king and rook, and no piece stands strictly between their files on
the king's rank.  Factored out because `&&` short-circuits in the source: the
final `!isVulnerable(game, king)` conjunct (the recursive edge into
`getValidMoves`) is evaluated only when this prefix holds. -/
def castlePrecond (game : Game) (king rook : Piece) : Bool :=
  king.type == PieceType.king &&
  rook.type == PieceType.rook &&
  king.moveCount == 0 &&
  rook.moveCount == 0 &&
  (game.pieces.filter (fun x =>
    x.coord.2 == king.coord.2 &&
    min king.coord.1 rook.coord.1 < x.coord.1 &&
    x.coord.1 < max king.coord.1 rook.coord.1)).length == 0

/-- `canCastle(game, king, rook)`: both are an unmoved king and rook, no
piece stands strictly between their files on the king's rank, and the king is
not currently vulnerable. -/
def canCastle (game : Game) (king rook : Piece) : Bool :=
  castlePrecond game king rook && !isVulnerable game king


/-! ### Normal-mode enumeration

In normal mode (`attacksOnly = false`) the `makeAttack` closure keeps a
candidate square only if playing it would not leave the mover's own king in
check, simulating the move with `updatePiece` and `isInCheck`; and the king
branch additionally consults `canCastle` per rook.  Both of these are the
recursive edges of the source's mutual recursion (`isInCheck` and
`isVulnerable` re-enter `getValidMoves` with `attacksOnly = true`).  The
skeleton below is therefore parametrized by the simulation predicate `sim`
(the value of `isInCheck(updatePiece(game, movedPiece), piece.color)`, `none`
for a throw) and the castling predicate `castleP`; the engine's
`getValidMovesN` instantiates them with the functions above, and the
fuel-indexed development further below instantiates the same skeleton with
depth-limited versions to establish the bounded depth of the recursion. -/

/-- Normal-mode `makeAttack(x, y)`: pushes the square when in bounds, not
friendly-occupied, and the simulation reports no self-check; returns the
pushed squares together with the closure's boolean result.  `none` models a
throw inside the simulation. -/
def makeAttackSim (game : Game) (piece : Piece) (sim : Int → Int → Option Bool)
    (x y : Int) : Option (List (Int × Int) × Bool) :=
  if inBoundsB x y && !hittingFriendlyB game piece x y then
    match sim x y with
    | none => none
    | some inCheck => some (if inCheck then [] else [(x, y)], true)
  else
    some ([], false)

/-- One direction of `makeAngleAttack` in normal mode (see `rayA` for the
fuel convention). -/
def raySim (game : Game) (piece : Piece) (sim : Int → Int → Option Bool)
    (dx dy : Int) : Nat → Int → Int → Option (List (Int × Int))
  | 0, _, _ => some []
  | fuel + 1, x, y =>
    match makeAttackSim game piece sim (x + dx) (y + dy) with
    | none => none
    | some step =>
      if !step.2 then some step.1
      else if (getPieceAtPosition game.pieces (x + dx) (y + dy)).isSome then some step.1
      else (raySim game piece sim dx dy fuel (x + dx) (y + dy)).map
        (fun rest => step.1 ++ rest)

/-- Sequential accumulation of pushed squares over a list of generators, with
throw propagation: models a loop whose body pushes the squares `f a` yields,
aborting if an iteration throws. -/
def pushMany {α β : Type} (l : List α) (f : α → Option (List β))
    (init : List β) : Option (List β) :=
  l.foldlM (fun acc a => (f a).map (fun ms => acc ++ ms)) init

/-- Normal-mode `makeAngleAttack`: rays in direction order, results appended;
a throw in any ray aborts the whole enumeration. -/
def makeAngleAttackSim (game : Game) (piece : Piece)
    (sim : Int → Int → Option Bool) (dirs : List (Int × Int)) (fuel : Nat) :
    Option (List (Int × Int)) :=
  pushMany dirs
    (fun d => raySim game piece sim d.1 d.2 fuel piece.coord.1 piece.coord.2) []

/-- One diagonal candidate of the normal-mode pawn branch: if the square
holds a piece, attack it only when it is opposite-colored; if it is empty,
attack it only when it is an en-passant-eligible square. -/
def pawnDiagSim (game : Game) (piece : Piece) (sim : Int → Int → Option Bool)
    (x y : Int) : Option (List (Int × Int)) :=
  match getPieceAtPosition game.pieces x y with
  | some hit =>
    if hit.color != piece.color then
      (makeAttackSim game piece sim x y).map (fun st => st.1)
    else some []
  | none =>
    if (getEnPassantPiece game piece x y).isSome then
      (makeAttackSim game piece sim x y).map (fun st => st.1)
    else some []

/-- The forward candidates of the normal-mode pawn branch: forward one when
unoccupied, then forward two when also unoccupied and the pawn has never
moved. -/
def pawnForwardSim (game : Game) (piece : Piece) (sim : Int → Int → Option Bool) :
    Option (List (Int × Int)) :=
  if (getPieceAtPosition game.pieces piece.coord.1
      (piece.coord.2 + getDirection game piece)).isNone then
    (makeAttackSim game piece sim piece.coord.1
        (piece.coord.2 + getDirection game piece)).bind
      (fun st1 =>
        (if (getPieceAtPosition game.pieces piece.coord.1
              (piece.coord.2 + 2 * getDirection game piece)).isNone &&
            piece.moveCount == 0 then
          (makeAttackSim game piece sim piece.coord.1
            (piece.coord.2 + 2 * getDirection game piece)).map (fun st => st.1)
        else some []).map (fun f2 => st1.1 ++ f2))
  else some []

/-- Normal-mode pawn branch of `getValidMoves`, in source push order:
left diagonal, right diagonal, forward one, forward two. -/
def pawnMovesSim (game : Game) (piece : Piece) (sim : Int → Int → Option Bool) :
    Option (List (Int × Int)) :=
  (pawnDiagSim game piece sim (piece.coord.1 - 1)
      (piece.coord.2 + getDirection game piece)).bind (fun l =>
    (pawnDiagSim game piece sim (piece.coord.1 + 1)
        (piece.coord.2 + getDirection game piece)).bind (fun r =>
      (pawnForwardSim game piece sim).map (fun f => l ++ r ++ f)))

/-- The four sign combinations of one knight offset pair, in source order:
the four `makeAttack` calls are sequenced (a throw in an earlier one aborts
the rest) and their pushes concatenated. -/
def knightPairSim (game : Game) (piece : Piece) (sim : Int → Int → Option Bool)
    (dx dy : Int) : Option (List (Int × Int)) :=
  (makeAttackSim game piece sim (piece.coord.1 + dx) (piece.coord.2 + dy)).bind
    (fun a =>
      (makeAttackSim game piece sim (piece.coord.1 - dx) (piece.coord.2 + dy)).bind
        (fun b =>
          (makeAttackSim game piece sim (piece.coord.1 + dx) (piece.coord.2 - dy)).bind
            (fun cc =>
              (makeAttackSim game piece sim (piece.coord.1 - dx)
                  (piece.coord.2 - dy)).map
                (fun d => a.1 ++ b.1 ++ cc.1 ++ d.1))))

/-- Normal-mode knight branch: offset pairs `[1, 2]` and `[2, 1]` with the
four sign combinations, in source order. -/
def knightMovesSim (game : Game) (piece : Piece) (sim : Int → Int → Option Bool) :
    Option (List (Int × Int)) :=
  pushMany ([(1, 2), (2, 1)] : List (Int × Int))
    (fun pr => knightPairSim game piece sim pr.1 pr.2) []

/-- One rook's castling candidate in the normal-mode king branch: when the
castling predicate holds, the sideways two-square jump toward that rook. -/
def castleTrySim (game : Game) (piece : Piece) (sim : Int → Int → Option Bool)
    (castleP : Piece → Option Bool) (rook : Piece) : Option (List (Int × Int)) :=
  match castleP rook with
  | none => none
  | some true =>
    (makeAttackSim game piece sim
      (piece.coord.1 + (if rook.coord.1 < piece.coord.1 then -2 else 2))
      piece.coord.2).map (fun st => st.1)
  | some false => some []

/-- Normal-mode king branch: the eight single-step rays, then for each
same-colored rook for which the castling predicate holds, the sideways
two-square jump toward that rook.  The source sorts the rook list with a
boolean comparator (coerced to 0/1 by `Array.prototype.sort`), which can only
permute the order in which the per-rook candidates are pushed; the model
processes the rooks in filter order. -/
def kingMovesSim (game : Game) (piece : Piece) (sim : Int → Int → Option Bool)
    (castleP : Piece → Option Bool) : Option (List (Int × Int)) :=
  (makeAngleAttackSim game piece sim dirs8 1).bind (fun base =>
    pushMany (game.pieces.filter (fun x =>
        x.type == PieceType.rook && x.color == piece.color))
      (castleTrySim game piece sim castleP) base)

/-- The per-piece-type dispatch of `getValidMoves` in normal mode, over a
given simulation predicate and castling predicate. -/
def getValidMovesGen (game : Game) (piece : Piece)
    (sim : Int → Int → Option Bool) (castleP : Piece → Option Bool) :
    Option (List (Int × Int)) :=
  match piece.type with
  | .pawn => pawnMovesSim game piece sim
  | .queen => makeAngleAttackSim game piece sim dirs8 9
  | .rook => makeAngleAttackSim game piece sim dirs4 9
  | .bishop => makeAngleAttackSim game piece sim dirs4Diag 9
  | .king => kingMovesSim game piece sim castleP
  | .knight => knightMovesSim game piece sim

/-- The self-check simulation of normal-mode `makeAttack`:
`isInCheck(updatePiece(game, {...piece, coord: [x, y]}), piece.color)`.
`none` models a throw in either call. -/
def simulatedCheck (game : Game) (piece : Piece) (x y : Int) : Option Bool :=
  (updatePiece game { piece with coord := (x, y) }).bind
    (fun g2 => isInCheck g2 piece.color)

/-- `getValidMoves(game, piece)` in normal mode (`attacksOnly = false`): the
skeleton instantiated with the engine's own simulation and `canCastle`. -/
def getValidMovesN (game : Game) (piece : Piece) : Option (List (Int × Int)) :=
  getValidMovesGen game piece (simulatedCheck game piece)
    (fun rook => some (canCastle game piece rook))

/-- `getValidMoves(game, piece, attacksOnly = false)`: the source's single
enumeration function; its local `makeAttack` closure specializes on the
`attacksOnly` flag, giving the two enumerations `getValidMovesA` (total) and
`getValidMovesN` (may throw through the self-check simulation). -/
def getValidMoves (game : Game) (piece : Piece) (attacksOnly : Bool := false) :
    Option (List (Int × Int)) :=
  if attacksOnly then some (getValidMovesA game piece) else getValidMovesN game piece

/-- `isValidMove(prevState, state)` on well-typed states.  Absent arguments
(`!prevState || !state`) are modelled by `none` inputs.  In the typed model
every piece record automatically has a recognized type, an array coord, a
recognized color and a defined id, so the structural validation of the source
always passes here (the raw model below captures its failure modes).  The
byte-compare `JSON.stringify(...) === JSON.stringify(state)` is structural
equality of states.  `none` as a result models a throw.  The `movedPieces`
computation and the `isValid` closure are the named functions
`movedPiecesOf` and `replayIsValid`.

`movedPiecesOf`: the pieces of the submitted state that moved or changed
type relative to the previous state (no piece at their square, or a
different id or type there). -/
def movedPiecesOf (prev st : Game) : List Piece :=
  st.pieces.filter (fun x =>
    match getPieceAtPosition prev.pieces x.coord.1 x.coord.2 with
    | none => true
    | some y => y.id != x.id || y.type != x.type)

/-- The local `isValid` closure of `isValidMove`: replay the moved piece
(with its own move-count increment cancelled) through `updatePiece`, compare
byte for byte with the submitted state, and check the destination against
`getValidMoves` on the old record.  `&&` short-circuits: when the replay
comparison fails, `getValidMoves` is not evaluated (so a throw inside it
cannot surface), and when it succeeds, an `undefined` `oldPiece` makes
`getValidMoves` throw (`none`). -/
def replayIsValid (prev st : Game) (piece : Piece) : Option Bool :=
  match updatePiece prev { piece with moveCount := piece.moveCount - 1 } with
  | none => none
  | some replayed =>
    if replayed = st then
      match prev.pieces.find? (fun x => x.id == piece.id) with
      | none => none
      | some oldPiece =>
        (getValidMovesN prev oldPiece).map (fun ms =>
          ms.any (fun m => m.1 == piece.coord.1 && m.2 == piece.coord.2))
    else some false

def isValidMove (prevState state : Option Game) : Option Bool :=
  match prevState, state with
  | some prev, some st =>
    match movedPiecesOf prev st with
    | [p] => replayIsValid prev st p
    | [p1, p2] =>
      match ([p1, p2].find? (fun x => x.type == PieceType.king)) with
      | none => some false
      | some king => replayIsValid prev st king
    | _ => some false
  | _, _ => some false

/-- `PIECE_NAMES`, as the list of recognized piece types of the typed model
(the raw model below uses the string form). -/
def PIECE_NAMES : List PieceType :=
  [.bishop, .king, .knight, .pawn, .queen, .rook]

/-! ### Fuel-indexed model of the mutual recursion

The source's `getValidMoves` in normal mode re-enters itself through two
edges: each candidate's self-check simulation (`isInCheck`, hence
`isVulnerable`, hence `getValidMoves(..., attacksOnly = true)` on every
opposing piece) and the king branch's `canCastle` (hence `isVulnerable`
again).  The definitions below make the recursion depth explicit: `fuel`
counts how many nested `getValidMoves` activations may still be opened, and
exhausting it yields `none` (modelling non-termination, which in the model is
indistinguishable from a thrown error).  Because the `attacksOnly` activation
performs no recursive call at all, depth 2 always suffices; the adequacy
theorem for this is the termination claim's formalization. -/

/-- A JavaScript `Array.prototype.filter` whose predicate may throw: `none`
aborts the whole filter. -/
def filterThrow {α : Type} (f : α → Option Bool) : List α → Option (List α)
  | [] => some []
  | a :: rest =>
    match f a with
    | none => none
    | some b => (filterThrow f rest).map (fun r => if b then a :: r else r)

/-- A depth-limited activation of `getValidMoves(game, piece, true)`: the
attack-mode body performs no recursive call, so one unit of fuel (the
activation itself) is all it needs. -/
def attackEnumFuel (fuel : Nat) (game : Game) (piece : Piece) :
    Option (List (Int × Int)) :=
  match fuel with
  | 0 => none
  | _ + 1 => some (getValidMovesA game piece)

/-- Depth-limited `getVulnerabilities`: the filter's predicate opens an
attack-mode `getValidMoves` activation per opposing piece. -/
def getVulnerabilitiesFuel (fuel : Nat) (game : Game) (piece : Piece) :
    Option (List Piece) :=
  filterThrow (fun x =>
    if x.color != piece.color then
      (attackEnumFuel fuel game x).map (fun ms =>
        ms.any (fun m => m.1 == piece.coord.1 && m.2 == piece.coord.2))
    else some false) game.pieces

/-- Depth-limited `isVulnerable`. -/
def isVulnerableFuel (fuel : Nat) (game : Game) (piece : Piece) : Option Bool :=
  (getVulnerabilitiesFuel fuel game piece).map (fun l => (l.length > 0 : Bool))

/-- Depth-limited `isInCheck` (see `isInCheck` for the no-king edge case). -/
def isInCheckFuel (fuel : Nat) (game : Game) (color : Color) : Option Bool :=
  match game.pieces.find? (fun x => x.color == color && x.type == PieceType.king) with
  | some king => isVulnerableFuel fuel game king
  | none => if game.pieces.isEmpty then some false else none

/-- Depth-limited `canCastle`. -/
def canCastleFuel (fuel : Nat) (game : Game) (king rook : Piece) : Option Bool :=
  if castlePrecond game king rook then
    (isVulnerableFuel fuel game king).map (fun v => !v)
  else some false

/-- Depth-limited self-check simulation of normal-mode `makeAttack`. -/
def simulatedCheckFuel (fuel : Nat) (game : Game) (piece : Piece) (x y : Int) :
    Option Bool :=
  (updatePiece game { piece with coord := (x, y) }).bind
    (fun g2 => isInCheckFuel fuel g2 piece.color)

/-- Depth-limited `getValidMoves`: entering the function consumes one unit of
fuel; the attack-mode body makes no further call, while the normal-mode body
may open nested activations through the simulation and castling predicates.
-/
def getValidMovesFuel : Nat → Game → Piece → Bool → Option (List (Int × Int))
  | 0, _, _, _ => none
  | fuel + 1, game, piece, attacksOnly =>
    if attacksOnly then some (getValidMovesA game piece)
    else
      getValidMovesGen game piece (simulatedCheckFuel fuel game piece)
        (fun rook => canCastleFuel fuel game piece rook)

/-! ## Raw model: dynamically typed client-submitted states

`isValidMove` is the trust boundary: its `state` argument is JSON parsed from
a client request, so its pieces need not be well-typed records.  The raw
model below re-embeds the engine over JSON-shaped values to capture the
structural validation and its behaviour on malformed pieces.  Modelled
domain: values produced by `JSON.parse` in which the numeric leaves (`id`
elements of `coord`, `moveCount`) are integers; `type` and `color` are
arbitrary strings; `coord` is either an array of integers or a non-array,
non-nullish value (`none` in the model); `id` is an integer or absent
(`undefined`).  Arithmetic on a missing coordinate element produces `NaN`;
the `JSNum` type tracks the `integer / NaN / undefined` distinction, since
`undefined === undefined` is true while `NaN === NaN` is false. -/

/-- A JavaScript number-or-undefined as it flows through the engine:
an integer, `NaN`, or `undefined`. -/
inductive JSNum where
  | int (i : Int)
  | nan
  | undefined
deriving DecidableEq, Repr

/-- JavaScript `+` on engine values (any non-integer operand yields `NaN`;
`undefined` coerces to `NaN`). -/
def jsAdd : JSNum → JSNum → JSNum
  | .int a, .int b => .int (a + b)
  | _, _ => .nan

/-- JavaScript `-` on engine values. -/
def jsSub : JSNum → JSNum → JSNum
  | .int a, .int b => .int (a - b)
  | _, _ => .nan

/-- JavaScript `===` on engine numbers: `undefined === undefined` is true,
`NaN` is equal to nothing. -/
def jsEq : JSNum → JSNum → Bool
  | .int a, .int b => a == b
  | .undefined, .undefined => true
  | _, _ => false

/-- JavaScript `<` (false when either side is `NaN` or `undefined`). -/
def jsLt : JSNum → JSNum → Bool
  | .int a, .int b => a < b
  | _, _ => false

/-- JavaScript `<=` (false when either side is `NaN` or `undefined`). -/
def jsLe : JSNum → JSNum → Bool
  | .int a, .int b => a ≤ b
  | _, _ => false

/-- `Math.sign` (`NaN` in, `NaN` out; `undefined` coerces to `NaN`). -/
def jsSign : JSNum → JSNum
  | .int a => .int a.sign
  | _ => .nan

/-- `Math.abs`. -/
def jsAbs : JSNum → JSNum
  | .int a => .int a.natAbs
  | _ => .nan

/-- `Math.min` (non-integers coerce to `NaN`, which propagates). -/
def jsMin : JSNum → JSNum → JSNum
  | .int a, .int b => .int (min a b)
  | _, _ => .nan

/-- `Math.max`. -/
def jsMax : JSNum → JSNum → JSNum
  | .int a, .int b => .int (max a b)
  | _, _ => .nan

/-- A JSON-shaped piece: `type`/`color` are strings, `id` an integer or
absent, `coord` an array of integers (of any length) or a non-array value. -/
structure RawPiece where
  id : Option Int
  type : String
  color : String
  coord : Option (List Int)
  moveCount : Int
deriving DecidableEq, Repr

/-- `piece.coord[0]`: `undefined` when the index is out of range or `coord`
is a non-array (non-nullish) value. -/
def rawCx (p : RawPiece) : JSNum :=
  match p.coord with
  | some l =>
    match l.get? 0 with
    | some v => .int v
    | none => .undefined
  | none => .undefined

/-- `piece.coord[1]`. -/
def rawCy (p : RawPiece) : JSNum :=
  match p.coord with
  | some l =>
    match l.get? 1 with
    | some v => .int v
    | none => .undefined
  | none => .undefined

/-- A JSON-shaped stored snapshot (`prevState` with its own `prevState`
stripped); `pieces` is `none` when the field is not an array. -/
structure RawGameCore where
  pieces : Option (List RawPiece)
  moveCount : Int
deriving DecidableEq, Repr

/-- A JSON-shaped game state. -/
structure RawGame where
  pieces : Option (List RawPiece)
  moveCount : Int
  prevState : Option RawGameCore
deriving DecidableEq, Repr

/-- `PIECE_NAMES` from the source, in source order. -/
def RAW_PIECE_NAMES : List String :=
  ["bishop", "king", "knight", "pawn", "queen", "rook"]

/-- Raw `getPieceAtPosition` over a pieces array (the caller has already
established the array-ness of `.pieces`; a non-array would have thrown). -/
def rawGetPieceAtPosition (pieces : List RawPiece) (x y : JSNum) : Option RawPiece :=
  (pieces.filter (fun p => jsEq (rawCx p) x && jsEq (rawCy p) y)).head?

/-- Raw `getDirection`. -/
def rawGetDirection (piece : RawPiece) : Int :=
  if piece.color == "white" then 1 else -1

/-- Raw `getEnPassantPiece`: the outer `Option` models a throw (a `prevState`
or game whose `pieces` is not an array), the inner one the
piece-or-`undefined` result. -/
def rawGetEnPassantPiece (game : RawGame) (piece : RawPiece) (x y : JSNum) :
    Option (Option RawPiece) :=
  if piece.type == "pawn" then
    match game.prevState with
    | some prevSt =>
      match game.pieces, prevSt.pieces with
      | some curPieces, some prevPieces =>
        let direction := rawGetDirection piece
        let cur := rawGetPieceAtPosition curPieces x (jsSub y (.int direction))
        let prev := rawGetPieceAtPosition prevPieces x (jsAdd y (.int direction))
        match cur, prev with
        | some c, some pv =>
          some (if c.id == pv.id && pv.type == "pawn" && pv.color != piece.color then
              some c
            else none)
        | _, _ => some none
      | _, _ => none
    | none => some none
  else some none

/-- Raw `updatePiece`.  `none` models a throw: `.pieces` not an array, no
piece with the given id, no matching rook in the castling branch, or a
piece-lookup throw inside `getEnPassantPiece`.  In the castling branch the
relocated rook's coordinate is an arithmetic result; inside the modelled
JSON-integer domain it is an integer (`none` signals leaving the domain,
where the source would write a `NaN` coordinate). -/
def rawUpdatePiece (game : RawGame) (piece : RawPiece) (moveCount : Int := 1) :
    Option RawGame :=
  match game.pieces with
  | none => none
  | some gpieces =>
    match gpieces.find? (fun x => x.id == piece.id) with
    | none => none
    | some oldPiece =>
      let didCastle := piece.type == "king" &&
        jsEq (jsAbs (jsSub (rawCx piece) (rawCx oldPiece))) (.int 2)
      let prevState : RawGameCore :=
        { pieces := game.pieces, moveCount := game.moveCount }
      (rawGetEnPassantPiece game oldPiece (rawCx piece) (rawCy piece)).bind
        (fun enPassantPiece =>
          if didCastle then
            let oldDir := jsSign (jsSub (rawCx piece) (rawCx oldPiece))
            match gpieces.find? (fun x =>
                x.type == "rook" &&
                x.color == piece.color &&
                jsEq (rawCy x) (rawCy piece) &&
                x.moveCount == 0 &&
                jsEq (jsSign (jsSub (rawCx x) (rawCx oldPiece))) oldDir) with
            | none => none
            | some rook =>
              match jsAdd (rawCx oldPiece) oldDir, rawCy piece with
              | .int rx, .int ry =>
                let pieces := gpieces.filter (fun x =>
                  (!jsEq (rawCx x) (rawCx piece) || !jsEq (rawCy x) (rawCy piece)) &&
                  !(x.id == piece.id) && !(x.id == rook.id))
                some { pieces := some (pieces ++
                         [{ piece with moveCount := piece.moveCount + moveCount },
                          { rook with
                             moveCount := rook.moveCount + moveCount
                             coord := some [rx, ry] }])
                       moveCount := game.moveCount + moveCount
                       prevState := some prevState }
              | _, _ => none
          else
            match enPassantPiece with
            | some ep =>
              let pieces := gpieces.filter (fun x =>
                !(x.id == piece.id) && !(x.id == ep.id))
              some { pieces := some (pieces ++
                       [{ piece with moveCount := piece.moveCount + moveCount }])
                     moveCount := game.moveCount + moveCount
                     prevState := some prevState }
            | none =>
              let pieces := gpieces.filter (fun x =>
                (!jsEq (rawCx x) (rawCx piece) || !jsEq (rawCy x) (rawCy piece)) &&
                !(x.id == piece.id))
              some { pieces := some (pieces ++
                       [{ piece with moveCount := piece.moveCount + moveCount }])
                     moveCount := game.moveCount + moveCount
                     prevState := some prevState })

/-- Raw in-bounds test (`NaN`/`undefined` coordinates always fail). -/
def rawInBounds (x y : JSNum) : Bool :=
  jsLe (.int 0) x && jsLe (.int 0) y && jsLt x (.int 8) && jsLt y (.int 8)

/-- Raw `makeAttack` over a given push predicate `keep` (the specialization
of the closure's inner branch on `attacksOnly`); `none` models a throw inside
the self-check simulation. -/
def rawMakeAttack (gp : List RawPiece) (piece : RawPiece)
    (keep : JSNum → JSNum → Option Bool) (x y : JSNum) :
    Option (List (JSNum × JSNum) × Bool) :=
  let hitPiece := rawGetPieceAtPosition gp x y
  let hittingFriendly :=
    match hitPiece with
    | some h => h.color == piece.color
    | none => false
  if rawInBounds x y && !hittingFriendly then
    match keep x y with
    | none => none
    | some k => some (if k then [(x, y)] else [], true)
  else some ([], false)

/-- Raw ray walk of `makeAngleAttack` (fuel convention as in `rayA`; a ray
from a `NaN` position fails its first in-bounds test and stops). -/
def rawRay (gp : List RawPiece) (piece : RawPiece)
    (keep : JSNum → JSNum → Option Bool) (dx dy : Int) :
    Nat → JSNum → JSNum → Option (List (JSNum × JSNum))
  | 0, _, _ => some []
  | fuel + 1, x, y =>
    match rawMakeAttack gp piece keep (jsAdd x (.int dx)) (jsAdd y (.int dy)) with
    | none => none
    | some step =>
      if !step.2 then some step.1
      else if (rawGetPieceAtPosition gp (jsAdd x (.int dx)) (jsAdd y (.int dy))).isSome
          then some step.1
      else (rawRay gp piece keep dx dy fuel (jsAdd x (.int dx)) (jsAdd y (.int dy))).map
        (fun rest => step.1 ++ rest)

/-- Raw `makeAngleAttack`. -/
def rawAngle (gp : List RawPiece) (piece : RawPiece)
    (keep : JSNum → JSNum → Option Bool) (dirs : List (Int × Int)) (fuel : Nat) :
    Option (List (JSNum × JSNum)) :=
  pushMany dirs
    (fun d => rawRay gp piece keep d.1 d.2 fuel (rawCx piece) (rawCy piece)) []

/-- Raw pawn diagonal candidate (capture, or en-passant-eligible empty
square; the en passant lookup can throw on a non-array `prevState.pieces`). -/
def rawPawnDiag (game : RawGame) (gp : List RawPiece) (piece : RawPiece)
    (keep : JSNum → JSNum → Option Bool) (x y : JSNum) :
    Option (List (JSNum × JSNum)) :=
  match rawGetPieceAtPosition gp x y with
  | some hit =>
    if hit.color != piece.color then
      (rawMakeAttack gp piece keep x y).map (fun st => st.1)
    else some []
  | none =>
    (rawGetEnPassantPiece game piece x y).bind (fun ep =>
      if ep.isSome then (rawMakeAttack gp piece keep x y).map (fun st => st.1)
      else some [])

/-- Raw pawn forward candidates. -/
def rawPawnForward (gp : List RawPiece) (piece : RawPiece)
    (keep : JSNum → JSNum → Option Bool) : Option (List (JSNum × JSNum)) :=
  let direction := rawGetDirection piece
  let fwd := jsAdd (rawCy piece) (.int direction)
  let fwd2 := jsAdd (rawCy piece) (.int (2 * direction))
  if (rawGetPieceAtPosition gp (rawCx piece) fwd).isNone then
    (rawMakeAttack gp piece keep (rawCx piece) fwd).bind (fun st1 =>
      (if (rawGetPieceAtPosition gp (rawCx piece) fwd2).isNone &&
          piece.moveCount == 0 then
        (rawMakeAttack gp piece keep (rawCx piece) fwd2).map (fun st => st.1)
      else some []).map (fun f2 => st1.1 ++ f2))
  else some []

/-- Raw pawn branch. -/
def rawPawnMoves (game : RawGame) (gp : List RawPiece) (piece : RawPiece)
    (keep : JSNum → JSNum → Option Bool) : Option (List (JSNum × JSNum)) :=
  let direction := rawGetDirection piece
  (rawPawnDiag game gp piece keep (jsSub (rawCx piece) (.int 1))
      (jsAdd (rawCy piece) (.int direction))).bind (fun l =>
    (rawPawnDiag game gp piece keep (jsAdd (rawCx piece) (.int 1))
        (jsAdd (rawCy piece) (.int direction))).bind (fun r =>
      (rawPawnForward gp piece keep).map (fun f => l ++ r ++ f)))

/-- Raw knight offset pair (four sign combinations, sequenced). -/
def rawKnightPair (gp : List RawPiece) (piece : RawPiece)
    (keep : JSNum → JSNum → Option Bool) (dx dy : Int) :
    Option (List (JSNum × JSNum)) :=
  (rawMakeAttack gp piece keep (jsAdd (rawCx piece) (.int dx))
      (jsAdd (rawCy piece) (.int dy))).bind (fun a =>
    (rawMakeAttack gp piece keep (jsSub (rawCx piece) (.int dx))
        (jsAdd (rawCy piece) (.int dy))).bind (fun b =>
      (rawMakeAttack gp piece keep (jsAdd (rawCx piece) (.int dx))
          (jsSub (rawCy piece) (.int dy))).bind (fun cc =>
        (rawMakeAttack gp piece keep (jsSub (rawCx piece) (.int dx))
            (jsSub (rawCy piece) (.int dy))).map
          (fun d => a.1 ++ b.1 ++ cc.1 ++ d.1))))

/-- Raw king branch: single-step rays, then per-rook castling candidates
through the castling predicate. -/
def rawKingMoves (gp : List RawPiece) (piece : RawPiece)
    (keep : JSNum → JSNum → Option Bool) (castleP : RawPiece → Option Bool) :
    Option (List (JSNum × JSNum)) :=
  (rawAngle gp piece keep dirs8 1).bind (fun base =>
    pushMany (gp.filter (fun x => x.type == "rook" && x.color == piece.color))
      (fun rook =>
        (castleP rook).bind (fun b =>
          if b then
            (rawMakeAttack gp piece keep
              (jsAdd (rawCx piece)
                (.int (if jsLt (rawCx rook) (rawCx piece) then -2 else 2)))
              (rawCy piece)).map (fun st => st.1)
          else some []))
      base)

/-- Raw per-type dispatch of `getValidMoves` (an unrecognized `type` string
falls through every branch of the source's if/else chain and yields the empty
candidate list). -/
def rawGetValidMovesGen (game : RawGame) (gp : List RawPiece) (piece : RawPiece)
    (keep : JSNum → JSNum → Option Bool) (castleP : RawPiece → Option Bool) :
    Option (List (JSNum × JSNum)) :=
  if piece.type == "pawn" then rawPawnMoves game gp piece keep
  else if piece.type == "queen" then rawAngle gp piece keep dirs8 9
  else if piece.type == "rook" then rawAngle gp piece keep dirs4 9
  else if piece.type == "bishop" then rawAngle gp piece keep dirs4Diag 9
  else if piece.type == "king" then rawKingMoves gp piece keep castleP
  else if piece.type == "knight" then
    pushMany ([(1, 2), (2, 1)] : List (Int × Int))
      (fun pr => rawKnightPair gp piece keep pr.1 pr.2) []
  else some []

/-- Raw `getValidMoves(game, piece, true)`: the attack-only keep condition is
`hitPiece && hitPiece.color !== piece.color`; the castling `forEach` body is
disabled by `!attacksOnly`. -/
def rawGetValidMovesA (game : RawGame) (piece : RawPiece) :
    Option (List (JSNum × JSNum)) :=
  match game.pieces with
  | none => none
  | some gp =>
    rawGetValidMovesGen game gp piece
      (fun x y => some (match rawGetPieceAtPosition gp x y with
        | some hit => hit.color != piece.color
        | none => false))
      (fun _ => some false)

/-- Raw `getVulnerabilities`. -/
def rawGetVulnerabilities (game : RawGame) (piece : RawPiece) :
    Option (List RawPiece) :=
  match game.pieces with
  | none => none
  | some gp =>
    filterThrow (fun x =>
      if x.color != piece.color then
        (rawGetValidMovesA game x).map (fun ms =>
          ms.any (fun m => jsEq m.1 (rawCx piece) && jsEq m.2 (rawCy piece)))
      else some false) gp

/-- Raw `isVulnerable`. -/
def rawIsVulnerable (game : RawGame) (piece : RawPiece) : Option Bool :=
  (rawGetVulnerabilities game piece).map (fun l => (l.length > 0 : Bool))

/-- Raw `isInCheck` (see `isInCheck` for the no-king edge case). -/
def rawIsInCheck (game : RawGame) (color : String) : Option Bool :=
  match game.pieces with
  | none => none
  | some gp =>
    match gp.find? (fun x => x.color == color && x.type == "king") with
    | some king => rawIsVulnerable game king
    | none => if gp.isEmpty then some false else none

/-- Raw `canCastle` (the non-recursive prefix short-circuits before the
`isVulnerable` conjunct). -/
def rawCanCastle (game : RawGame) (king rook : RawPiece) : Option Bool :=
  match game.pieces with
  | none => none
  | some gp =>
    if king.type == "king" &&
       rook.type == "rook" &&
       king.moveCount == 0 &&
       rook.moveCount == 0 &&
       (gp.filter (fun x =>
         jsEq (rawCy x) (rawCy king) &&
         jsLt (jsMin (rawCx king) (rawCx rook)) (rawCx x) &&
         jsLt (rawCx x) (jsMax (rawCx king) (rawCx rook)))).length == 0 then
      (rawIsVulnerable game king).map (fun v => !v)
    else some false

/-- Raw `getValidMoves(game, piece)` in normal mode.  The keep predicate is
`!isInCheck(updatePiece(game, movedPiece), piece.color)`; it is only invoked
on in-bounds (hence integer) candidate coordinates, so the moved piece's
fresh `[x, y]` coordinate array is well-defined. -/
def rawGetValidMovesN (game : RawGame) (piece : RawPiece) :
    Option (List (JSNum × JSNum)) :=
  match game.pieces with
  | none => none
  | some gp =>
    rawGetValidMovesGen game gp piece
      (fun x y =>
        match x, y with
        | .int a, .int b =>
          ((rawUpdatePiece game { piece with coord := some [a, b] }).bind
            (fun g2 => rawIsInCheck g2 piece.color)).map (fun inCheck => !inCheck)
        | _, _ => none)
      (fun rook => rawCanCastle game piece rook)

/-- Raw `isValidMove`: the trust-boundary validator exactly as in the source.
The structural gate checks only the submitted `state`: both states present,
`state.pieces` an array, and every element carrying a recognized `type`, an
**array** `coord` (`Array.isArray(x.coord)` — the length is not inspected), a
recognized `color`, and a defined `id`.  After the gate, `movedPieces` is
computed (throwing if a nonempty `state.pieces` is compared against a
`prevState` whose `pieces` is not an array), and the single moved piece (or
the king of a two-piece castling difference) is replayed and byte-compared. -/
def rawIsValidMove (prevState state : Option RawGame) : Option Bool :=
  match prevState, state with
  | some prev, some st =>
    match st.pieces with
    | none => some false
    | some stPieces =>
      if stPieces.all (fun x =>
          RAW_PIECE_NAMES.contains x.type &&
          x.coord.isSome &&
          (["black", "white"].contains x.color) &&
          x.id.isSome) then
        match stPieces, prev.pieces with
        | [], _ => some false
        | _ :: _, none => none
        | sp0 :: spr, some prevPieces =>
          let movedPieces := (sp0 :: spr).filter (fun x =>
            match rawGetPieceAtPosition prevPieces (rawCx x) (rawCy x) with
            | none => true
            | some y => !(y.id == x.id) || !(y.type == x.type))
          let isValid : RawPiece → Option Bool := fun piece =>
            (rawUpdatePiece prev { piece with moveCount := piece.moveCount - 1 }).bind
              (fun replayed =>
                if replayed = st then
                  match prevPieces.find? (fun x => x.id == piece.id) with
                  | none => none
                  | some oldPiece =>
                    (rawGetValidMovesN prev oldPiece).map (fun ms =>
                      ms.any (fun m =>
                        jsEq m.1 (rawCx piece) && jsEq m.2 (rawCy piece)))
                else some false)
          match movedPieces with
          | [p] => isValid p
          | [p1, p2] =>
            match ([p1, p2].find? (fun x => x.type == "king")) with
            | none => some false
            | some king => isValid king
          | _ => some false
      else some false
  | _, _ => some false

/-! ## Concrete states used by witnesses and counterexamples -/

/-- The property a square kept by normal-mode `makeAttack` satisfies: in
bounds, not friendly-occupied, and the self-check simulation succeeded and
reported no check. -/
def KeptSim (game : Game) (piece : Piece) (sim : Int → Int → Option Bool)
    (c : Int × Int) : Prop :=
  inBoundsB c.1 c.2 = true ∧ hittingFriendlyB game piece c.1 c.2 = false ∧
  sim c.1 c.2 = some false

/-- The property a square kept by attack-mode `makeAttack` satisfies: in
bounds and occupied by an opposite-colored piece. -/
def AttackedSq (game : Game) (piece : Piece) (c : Int × Int) : Prop :=
  inBoundsB c.1 c.2 = true ∧
  ∃ hit, getPieceAtPosition game.pieces c.1 c.2 = some hit ∧ hit.color ≠ piece.color

/-- Two bare kings; white to move. -/
def w1Game : Game :=
  { pieces := [ { id := 0, type := .king, color := .white, coord := (4, 0), moveCount := 0 },
                { id := 1, type := .king, color := .black, coord := (4, 7), moveCount := 0 } ]
    moveCount := 0
    prevState := none }

/-- The white king of `w1Game`. -/
def w1King : Piece :=
  { id := 0, type := .king, color := .white, coord := (4, 0), moveCount := 0 }

/-- En passant position in which the capture square is already occupied: the
white pawn may capture the black pawn en passant at (1, 5) (the black pawn
double-stepped from (1, 6) past it), but a black knight already stands on
(1, 5). -/
def cx2Game : Game :=
  { pieces :=
      [ { id := 1, type := .pawn, color := .white, coord := (0, 4), moveCount := 2 },
        { id := 2, type := .pawn, color := .black, coord := (1, 4), moveCount := 1 },
        { id := 3, type := .knight, color := .black, coord := (1, 5), moveCount := 1 } ]
    moveCount := 5
    prevState := some
      ⟨[ { id := 1, type := .pawn, color := .white, coord := (0, 4), moveCount := 2 },
         { id := 2, type := .pawn, color := .black, coord := (1, 6), moveCount := 0 },
         { id := 3, type := .knight, color := .black, coord := (1, 5), moveCount := 1 } ],
       4⟩ }

/-- The white pawn of `cx2Game`, updated to the en passant destination. -/
def cx2Piece : Piece :=
  { id := 1, type := .pawn, color := .white, coord := (1, 5), moveCount := 2 }

/-- A pawn and two kings; the white pawn at (0, 1) can step forward. -/
def w2Game : Game :=
  { pieces :=
      [ { id := 0, type := .king, color := .white, coord := (7, 0), moveCount := 0 },
        { id := 1, type := .king, color := .black, coord := (7, 7), moveCount := 0 },
        { id := 2, type := .pawn, color := .white, coord := (0, 1), moveCount := 0 } ]
    moveCount := 0
    prevState := none }

/-- The white pawn of `w2Game`, updated one square forward. -/
def w2Piece : Piece :=
  { id := 2, type := .pawn, color := .white, coord := (0, 2), moveCount := 0 }

/-- Two bare kings; white to move (self-check witness). -/
def w3Game : Game :=
  { pieces := [ { id := 0, type := .king, color := .white, coord := (4, 0), moveCount := 0 },
                { id := 1, type := .king, color := .black, coord := (4, 7), moveCount := 0 } ]
    moveCount := 0
    prevState := none }

/-- The white king of `w3Game`. -/
def w3King : Piece :=
  { id := 0, type := .king, color := .white, coord := (4, 0), moveCount := 0 }

/-- The initial position with the white queenside knight and bishop removed,
so the white king and queenside rook may castle. -/
def w5Game : Game :=
  { pieces := createPieces.filter (fun p => p.id != 1 && p.id != 2)
    moveCount := 0
    prevState := none }

/-- The white king of `w5Game`. -/
def w5King : Piece :=
  { id := 3, type := .king, color := .white, coord := (3, 0), moveCount := 0 }

/-- The white queenside rook of `w5Game`. -/
def w5Rook : Piece :=
  { id := 0, type := .rook, color := .white, coord := (0, 0), moveCount := 0 }

/-- A white rook facing a black pawn up its file. -/
def w8Game : Game :=
  { pieces := [ { id := 0, type := .rook, color := .white, coord := (0, 0), moveCount := 0 },
                { id := 1, type := .pawn, color := .black, coord := (0, 3), moveCount := 1 } ]
    moveCount := 0
    prevState := none }

/-- The white rook of `w8Game`. -/
def w8Rook : Piece :=
  { id := 0, type := .rook, color := .white, coord := (0, 0), moveCount := 0 }

/-- A rook move (frame-property witness): same state as `w2Game` but moving
the rook-free pawn is replaced by a plain rook displacement. -/
def w10Game : Game :=
  { pieces :=
      [ { id := 0, type := .king, color := .white, coord := (7, 0), moveCount := 0 },
        { id := 1, type := .king, color := .black, coord := (7, 7), moveCount := 0 },
        { id := 2, type := .rook, color := .white, coord := (0, 0), moveCount := 0 } ]
    moveCount := 0
    prevState := none }

/-- The white rook of `w10Game`, updated one square up. -/
def w10Piece : Piece :=
  { id := 2, type := .rook, color := .white, coord := (0, 1), moveCount := 0 }

/-- Raw stored state for the structural-validation counterexample: a white
rook and both kings. -/
def cx6Prev : RawGame :=
  { pieces := some
      [ { id := some 0, type := "rook", color := "white", coord := some [0, 0], moveCount := 0 },
        { id := some 1, type := "king", color := "white", coord := some [4, 0], moveCount := 0 },
        { id := some 2, type := "king", color := "black", coord := some [4, 7], moveCount := 0 } ]
    moveCount := 0
    prevState := none }

/-- Raw submitted state: the rook legally moved from (0, 0) to (0, 1), but
its `coord` array carries a third element — it is not a 2-element coord, yet
every structural check of the source passes (`Array.isArray` does not inspect
the length) and the replay reproduces the state byte for byte. -/
def cx6State : RawGame :=
  { pieces := some
      [ { id := some 1, type := "king", color := "white", coord := some [4, 0], moveCount := 0 },
        { id := some 2, type := "king", color := "black", coord := some [4, 7], moveCount := 0 },
        { id := some 0, type := "rook", color := "white", coord := some [0, 1, 99], moveCount := 1 } ]
    moveCount := 1
    prevState := some
      ⟨some [ { id := some 0, type := "rook", color := "white", coord := some [0, 0], moveCount := 0 },
              { id := some 1, type := "king", color := "white", coord := some [4, 0], moveCount := 0 },
              { id := some 2, type := "king", color := "black", coord := some [4, 7], moveCount := 0 } ],
       0⟩ }

/-- The old record of `w2Piece` in `w2Game`. -/
def w2Old : Piece :=
  { id := 2, type := .pawn, color := .white, coord := (0, 1), moveCount := 0 }

/-- The state `updatePiece w2Game w2Piece` produces. -/
def w2Out : Game :=
  { pieces :=
      [ { id := 0, type := .king, color := .white, coord := (7, 0), moveCount := 0 },
        { id := 1, type := .king, color := .black, coord := (7, 7), moveCount := 0 },
        { id := 2, type := .pawn, color := .white, coord := (0, 2), moveCount := 1 } ]
    moveCount := 1
    prevState := some ⟨w2Game.pieces, 0⟩ }

/-- The old record of `w10Piece` in `w10Game`. -/
def w10Old : Piece :=
  { id := 2, type := .rook, color := .white, coord := (0, 0), moveCount := 0 }

/-- The state `updatePiece w10Game w10Piece` produces. -/
def w10Out : Game :=
  { pieces :=
      [ { id := 0, type := .king, color := .white, coord := (7, 0), moveCount := 0 },
        { id := 1, type := .king, color := .black, coord := (7, 7), moveCount := 0 },
        { id := 2, type := .rook, color := .white, coord := (0, 1), moveCount := 1 } ]
    moveCount := 1
    prevState := some ⟨w10Game.pieces, 0⟩ }

/-! ## Lemmas -/

theorem head?_some_mem {α : Type} {l : List α} {a : α} (h : l.head? = some a) :
    a ∈ l := by
  cases l with
  | nil => cases h
  | cons b t =>
    injection h with h
    subst h
    exact List.mem_cons_self b t

theorem getPieceAtPosition_mem {pieces : List Piece} {x y : Int} {o : Piece}
    (h : getPieceAtPosition pieces x y = some o) :
    o ∈ pieces ∧ o.coord.1 = x ∧ o.coord.2 = y := by
  unfold getPieceAtPosition at h
  have hmem := head?_some_mem h
  rw [List.mem_filter] at hmem
  have hpred := hmem.2
  simp only [Bool.and_eq_true, beq_iff_eq] at hpred
  exact ⟨hmem.1, hpred.1, hpred.2⟩

theorem getPieceAtPosition_self {pieces : List Piece} {p : Piece}
    (hnd : List.Pairwise (fun a b => a.coord ≠ b.coord) pieces) (hmem : p ∈ pieces) :
    getPieceAtPosition pieces p.coord.1 p.coord.2 = some p := by
  unfold getPieceAtPosition
  induction pieces with
  | nil => cases hmem
  | cons a t ih =>
    rcases List.mem_cons.mp hmem with rfl | hmem2
    · simp
    · have hne : a.coord ≠ p.coord := (List.pairwise_cons.mp hnd).1 p hmem2
      have hfa : (a.coord.1 == p.coord.1 && a.coord.2 == p.coord.2) = false := by
        by_contra hcon
        rw [Bool.not_eq_false, Bool.and_eq_true, beq_iff_eq, beq_iff_eq] at hcon
        exact hne (Prod.ext hcon.1 hcon.2)
      rw [List.filter_cons_of_neg (by simp [hfa])]
      exact ih (List.pairwise_cons.mp hnd).2 hmem2

theorem find?_id_self {pieces : List Piece} {p : Piece}
    (hnd : List.Pairwise (fun a b => a.id ≠ b.id) pieces) (hmem : p ∈ pieces) :
    pieces.find? (fun x => x.id == p.id) = some p := by
  induction pieces with
  | nil => cases hmem
  | cons a t ih =>
    rcases List.mem_cons.mp hmem with rfl | hmem2
    · simp
    · have hne : a.id ≠ p.id := (List.pairwise_cons.mp hnd).1 p hmem2
      rw [List.find?_cons_of_neg t (by simpa using hne)]
      exact ih (List.pairwise_cons.mp hnd).2 hmem2

theorem ids_ne_of_pairwise {pieces : List Piece} {a b : Piece}
    (hnd : List.Pairwise (fun x y => x.id ≠ y.id) pieces)
    (ha : a ∈ pieces) (hb : b ∈ pieces) (hne : a ≠ b) : a.id ≠ b.id :=
  hnd.forall (fun _ _ h => h.symm) ha hb hne

theorem mem_makeAttackSim {game : Game} {piece : Piece}
    {sim : Int → Int → Option Bool} {x y : Int} {st : List (Int × Int) × Bool}
    {c : Int × Int} (h : makeAttackSim game piece sim x y = some st)
    (hc : c ∈ st.1) : c = (x, y) ∧ KeptSim game piece sim c := by
  unfold makeAttackSim at h
  by_cases hcond : (inBoundsB x y && !hittingFriendlyB game piece x y) = true
  · rw [if_pos hcond] at h
    cases hs : sim x y with
    | none => rw [hs] at h; cases h
    | some b =>
      rw [hs] at h
      injection h with h
      subst h
      cases b with
      | true => simp at hc
      | false =>
        simp only [if_neg Bool.false_ne_true, List.mem_singleton] at hc
        subst hc
        rw [Bool.and_eq_true, Bool.not_eq_true'] at hcond
        exact ⟨rfl, hcond.1, hcond.2, hs⟩
  · rw [if_neg hcond] at h
    injection h with h
    subst h
    simp at hc

theorem pushMany_cons {α β : Type} (a : α) (l : List α)
    (f : α → Option (List β)) (init : List β) :
    pushMany (a :: l) f init = (f a).bind (fun ms => pushMany l f (init ++ ms)) := by
  cases h : f a <;> simp [pushMany, List.foldlM, h, Option.bind]

theorem mem_pushMany {α β : Type} {l : List α} {f : α → Option (List β)}
    {init out : List β} {c : β}
    (h : pushMany l f init = some out) (hc : c ∈ out) :
    c ∈ init ∨ ∃ a ∈ l, ∃ ms, f a = some ms ∧ c ∈ ms := by
  induction l generalizing init with
  | nil =>
    simp only [pushMany, List.foldlM] at h
    injection h with h
    subst h
    exact Or.inl hc
  | cons a t ih =>
    rw [pushMany_cons] at h
    cases hfa : f a with
    | none => rw [hfa] at h; cases h
    | some ms =>
      rw [hfa] at h
      rcases ih h with hin | ⟨b, hb, ms2, hms2, hcms2⟩
      · rcases List.mem_append.mp hin with hin1 | hin2
        · exact Or.inl hin1
        · exact Or.inr ⟨a, List.mem_cons_self a t, ms, hfa, hin2⟩
      · exact Or.inr ⟨b, List.mem_cons_of_mem a hb, ms2, hms2, hcms2⟩

theorem mem_raySim {game : Game} {piece : Piece} {sim : Int → Int → Option Bool}
    {dx dy : Int} {fuel : Nat} {x y : Int} {out : List (Int × Int)} {c : Int × Int}
    (h : raySim game piece sim dx dy fuel x y = some out) (hc : c ∈ out) :
    KeptSim game piece sim c := by
  induction fuel generalizing x y out with
  | zero =>
    injection h with h
    subst h
    cases hc
  | succ n ih =>
    unfold raySim at h
    cases hstep : makeAttackSim game piece sim (x + dx) (y + dy) with
    | none => rw [hstep] at h; cases h
    | some step =>
      rw [hstep] at h
      dsimp only at h
      by_cases hcont : (!step.2) = true
      · rw [if_pos hcont] at h
        injection h with h
        subst h
        exact (mem_makeAttackSim hstep hc).2
      · rw [if_neg hcont] at h
        by_cases hocc : (getPieceAtPosition game.pieces (x + dx) (y + dy)).isSome = true
        · rw [if_pos hocc] at h
          injection h with h
          subst h
          exact (mem_makeAttackSim hstep hc).2
        · rw [if_neg hocc] at h
          cases hrest : raySim game piece sim dx dy n (x + dx) (y + dy) with
          | none => rw [hrest] at h; cases h
          | some rest =>
            rw [hrest] at h
            injection h with h
            subst h
            rcases List.mem_append.mp hc with hc1 | hc2
            · exact (mem_makeAttackSim hstep hc1).2
            · exact ih hrest hc2

theorem mem_makeAngleAttackSim {game : Game} {piece : Piece}
    {sim : Int → Int → Option Bool} {dirs : List (Int × Int)} {fuel : Nat}
    {out : List (Int × Int)} {c : Int × Int}
    (h : makeAngleAttackSim game piece sim dirs fuel = some out) (hc : c ∈ out) :
    KeptSim game piece sim c := by
  unfold makeAngleAttackSim at h
  rcases mem_pushMany h hc with hin | ⟨d, _, ms, hms, hcms⟩
  · cases hin
  · exact mem_raySim hms hcms

theorem mem_pawnDiagSim {game : Game} {piece : Piece}
    {sim : Int → Int → Option Bool} {x y : Int} {out : List (Int × Int)}
    {c : Int × Int} (h : pawnDiagSim game piece sim x y = some out)
    (hc : c ∈ out) : KeptSim game piece sim c := by
  unfold pawnDiagSim at h
  cases hhit : getPieceAtPosition game.pieces x y with
  | some hit =>
    rw [hhit] at h
    dsimp only at h
    split_ifs at h
    · rcases Option.map_eq_some'.mp h with ⟨st, hst, rfl⟩
      exact (mem_makeAttackSim hst hc).2
    · injection h with h
      subst h
      cases hc
  | none =>
    rw [hhit] at h
    dsimp only at h
    split_ifs at h
    · rcases Option.map_eq_some'.mp h with ⟨st, hst, rfl⟩
      exact (mem_makeAttackSim hst hc).2
    · injection h with h
      subst h
      cases hc

theorem mem_pawnForwardSim {game : Game} {piece : Piece}
    {sim : Int → Int → Option Bool} {out : List (Int × Int)} {c : Int × Int}
    (h : pawnForwardSim game piece sim = some out) (hc : c ∈ out) :
    KeptSim game piece sim c := by
  unfold pawnForwardSim at h
  split_ifs at h with h1 h2
  · rcases Option.bind_eq_some.mp h with ⟨st1, hst1, hmap⟩
    rcases Option.map_eq_some'.mp hmap with ⟨f2pre, hf2pre, hout⟩
    rcases Option.map_eq_some'.mp hf2pre with ⟨st2, hst2, rfl⟩
    subst hout
    rcases List.mem_append.mp hc with hc1 | hc2
    · exact (mem_makeAttackSim hst1 hc1).2
    · exact (mem_makeAttackSim hst2 hc2).2
  · rcases Option.bind_eq_some.mp h with ⟨st1, hst1, hmap⟩
    rcases Option.map_eq_some'.mp hmap with ⟨f2, hf2, hout⟩
    injection hf2 with hf2
    subst hf2
    subst hout
    rcases List.mem_append.mp hc with hc1 | hc2
    · exact (mem_makeAttackSim hst1 hc1).2
    · cases hc2
  · injection h with h
    subst h
    cases hc

theorem mem_pawnMovesSim {game : Game} {piece : Piece}
    {sim : Int → Int → Option Bool} {out : List (Int × Int)} {c : Int × Int}
    (h : pawnMovesSim game piece sim = some out) (hc : c ∈ out) :
    KeptSim game piece sim c := by
  unfold pawnMovesSim at h
  rcases Option.bind_eq_some.mp h with ⟨l, hl, h2⟩
  rcases Option.bind_eq_some.mp h2 with ⟨r, hr, h3⟩
  rcases Option.map_eq_some'.mp h3 with ⟨f, hf, hout⟩
  subst hout
  rcases List.mem_append.mp hc with hlr | hcf
  · rcases List.mem_append.mp hlr with hcl | hcr
    · exact mem_pawnDiagSim hl hcl
    · exact mem_pawnDiagSim hr hcr
  · exact mem_pawnForwardSim hf hcf

theorem mem_knightPairSim {game : Game} {piece : Piece}
    {sim : Int → Int → Option Bool} {dx dy : Int} {out : List (Int × Int)}
    {c : Int × Int} (h : knightPairSim game piece sim dx dy = some out)
    (hc : c ∈ out) : KeptSim game piece sim c := by
  unfold knightPairSim at h
  rcases Option.bind_eq_some.mp h with ⟨a, ha, h2⟩
  rcases Option.bind_eq_some.mp h2 with ⟨b, hb, h3⟩
  rcases Option.bind_eq_some.mp h3 with ⟨cc, hcc, h4⟩
  rcases Option.map_eq_some'.mp h4 with ⟨d, hd, hout⟩
  subst hout
  rcases List.mem_append.mp hc with h5 | h6
  · rcases List.mem_append.mp h5 with h7 | h8
    · rcases List.mem_append.mp h7 with h9 | h10
      · exact (mem_makeAttackSim ha h9).2
      · exact (mem_makeAttackSim hb h10).2
    · exact (mem_makeAttackSim hcc h8).2
  · exact (mem_makeAttackSim hd h6).2

theorem mem_knightMovesSim {game : Game} {piece : Piece}
    {sim : Int → Int → Option Bool} {out : List (Int × Int)} {c : Int × Int}
    (h : knightMovesSim game piece sim = some out) (hc : c ∈ out) :
    KeptSim game piece sim c := by
  unfold knightMovesSim at h
  rcases mem_pushMany h hc with hin | ⟨pr, _, ms, hms, hcms⟩
  · cases hin
  · exact mem_knightPairSim hms hcms

theorem mem_castleTrySim {game : Game} {piece : Piece}
    {sim : Int → Int → Option Bool} {castleP : Piece → Option Bool}
    {rook : Piece} {out : List (Int × Int)} {c : Int × Int}
    (h : castleTrySim game piece sim castleP rook = some out) (hc : c ∈ out) :
    KeptSim game piece sim c := by
  unfold castleTrySim at h
  cases hcp : castleP rook with
  | none => rw [hcp] at h; cases h
  | some b =>
    rw [hcp] at h
    cases b with
    | true =>
      rcases Option.map_eq_some'.mp h with ⟨st, hst, rfl⟩
      exact (mem_makeAttackSim hst hc).2
    | false =>
      injection h with h
      subst h
      cases hc

theorem mem_kingMovesSim {game : Game} {piece : Piece}
    {sim : Int → Int → Option Bool} {castleP : Piece → Option Bool}
    {out : List (Int × Int)} {c : Int × Int}
    (h : kingMovesSim game piece sim castleP = some out) (hc : c ∈ out) :
    KeptSim game piece sim c := by
  unfold kingMovesSim at h
  rcases Option.bind_eq_some.mp h with ⟨base, hbase, hpush⟩
  rcases mem_pushMany hpush hc with hin | ⟨rook, _, ms, hms, hcms⟩
  · exact mem_makeAngleAttackSim hbase hin
  · exact mem_castleTrySim hms hcms

theorem mem_getValidMovesGen {game : Game} {piece : Piece}
    {sim : Int → Int → Option Bool} {castleP : Piece → Option Bool}
    {out : List (Int × Int)} {c : Int × Int}
    (h : getValidMovesGen game piece sim castleP = some out) (hc : c ∈ out) :
    KeptSim game piece sim c := by
  unfold getValidMovesGen at h
  cases hty : piece.type <;> rw [hty] at h
  case pawn => exact mem_pawnMovesSim h hc
  case queen => exact mem_makeAngleAttackSim h hc
  case rook => exact mem_makeAngleAttackSim h hc
  case bishop => exact mem_makeAngleAttackSim h hc
  case king => exact mem_kingMovesSim h hc
  case knight => exact mem_knightMovesSim h hc

theorem mem_getValidMovesN {game : Game} {piece : Piece}
    {out : List (Int × Int)} {c : Int × Int}
    (h : getValidMovesN game piece = some out) (hc : c ∈ out) :
    KeptSim game piece (simulatedCheck game piece) c :=
  mem_getValidMovesGen h hc

theorem updatePiece_normal_eq (game : Game) (piece : Piece) (mc : Int) (old : Piece)
    (hfind : game.pieces.find? (fun x => x.id == piece.id) = some old)
    (hnc : ¬(piece.type = PieceType.king ∧ (piece.coord.1 - old.coord.1).natAbs = 2))
    (hep : getEnPassantPiece game old piece.coord.1 piece.coord.2 = none) :
    updatePiece game piece mc =
      some { pieces := game.pieces.filter (fun x =>
               (x.coord.1 != piece.coord.1 || x.coord.2 != piece.coord.2) &&
               x.id != piece.id) ++ [{ piece with moveCount := piece.moveCount + mc }]
             moveCount := game.moveCount + mc
             prevState := some { pieces := game.pieces, moveCount := game.moveCount } } := by
  unfold updatePiece
  rw [hfind]
  simp only [hep, if_neg hnc]

theorem updatePiece_ep_eq (game : Game) (piece : Piece) (mc : Int) (old ep : Piece)
    (hfind : game.pieces.find? (fun x => x.id == piece.id) = some old)
    (hnc : ¬(piece.type = PieceType.king ∧ (piece.coord.1 - old.coord.1).natAbs = 2))
    (hep : getEnPassantPiece game old piece.coord.1 piece.coord.2 = some ep) :
    updatePiece game piece mc =
      some { pieces := game.pieces.filter (fun x =>
               x.id != piece.id && x.id != ep.id) ++
               [{ piece with moveCount := piece.moveCount + mc }]
             moveCount := game.moveCount + mc
             prevState := some { pieces := game.pieces, moveCount := game.moveCount } } := by
  unfold updatePiece
  rw [hfind]
  simp only [hep, if_neg hnc]

theorem updatePiece_castle_eq (game : Game) (piece : Piece) (mc : Int) (old rook : Piece)
    (hfind : game.pieces.find? (fun x => x.id == piece.id) = some old)
    (hc : piece.type = PieceType.king ∧ (piece.coord.1 - old.coord.1).natAbs = 2)
    (hrook : game.pieces.find? (fun x =>
        x.type == PieceType.rook &&
        x.color == piece.color &&
        x.coord.2 == piece.coord.2 &&
        x.moveCount == 0 &&
        (x.coord.1 - old.coord.1).sign == (piece.coord.1 - old.coord.1).sign) = some rook) :
    updatePiece game piece mc =
      some { pieces := game.pieces.filter (fun x =>
               (x.coord.1 != piece.coord.1 || x.coord.2 != piece.coord.2) &&
               x.id != piece.id && x.id != rook.id) ++
               [{ piece with moveCount := piece.moveCount + mc },
                { rook with
                   moveCount := rook.moveCount + mc
                   coord := (old.coord.1 + (piece.coord.1 - old.coord.1).sign, piece.coord.2) }]
             moveCount := game.moveCount + mc
             prevState := some { pieces := game.pieces, moveCount := game.moveCount } } := by
  unfold updatePiece
  rw [hfind]
  simp only [if_pos hc, hrook]

theorem updatePiece_find?_isSome {game : Game} {piece : Piece} {mc : Int} {S : Game}
    (h : updatePiece game piece mc = some S) :
    ∃ old, game.pieces.find? (fun x => x.id == piece.id) = some old := by
  unfold updatePiece at h
  cases hfind : game.pieces.find? (fun x => x.id == piece.id) with
  | none => rw [hfind] at h; cases h
  | some old => exact ⟨old, rfl⟩

theorem mem_makeAttackA {game : Game} {piece : Piece} {x y : Int} {c : Int × Int}
    (hc : c ∈ (makeAttackA game piece x y).1) :
    c = (x, y) ∧ AttackedSq game piece c := by
  unfold makeAttackA at hc
  by_cases hcond : (inBoundsB x y && !hittingFriendlyB game piece x y) = true
  · rw [if_pos hcond] at hc
    cases hhit : getPieceAtPosition game.pieces x y with
    | none =>
      rw [hhit] at hc
      cases hc
    | some hit =>
      rw [hhit] at hc
      dsimp only at hc
      split_ifs at hc with hco
      · rcases List.mem_singleton.mp hc with rfl
        rw [Bool.and_eq_true] at hcond
        refine ⟨rfl, hcond.1, hit, hhit, ?_⟩
        simpa using hco
      · cases hc
  · rw [if_neg hcond] at hc
    cases hc

theorem mem_rayA {game : Game} {piece : Piece} {dx dy : Int} {fuel : Nat}
    {x y : Int} {c : Int × Int}
    (hc : c ∈ rayA game piece dx dy fuel x y) : AttackedSq game piece c := by
  induction fuel generalizing x y with
  | zero => cases hc
  | succ n ih =>
    unfold rayA at hc
    by_cases hcont : (!(makeAttackA game piece (x + dx) (y + dy)).2) = true
    · rw [if_pos hcont] at hc
      exact (mem_makeAttackA hc).2
    · rw [if_neg hcont] at hc
      by_cases hocc : (getPieceAtPosition game.pieces (x + dx) (y + dy)).isSome = true
      · rw [if_pos hocc] at hc
        exact (mem_makeAttackA hc).2
      · rw [if_neg hocc] at hc
        rcases List.mem_append.mp hc with hc1 | hc2
        · exact (mem_makeAttackA hc1).2
        · exact ih hc2

theorem mem_makeAngleAttackA {game : Game} {piece : Piece}
    {dirs : List (Int × Int)} {fuel : Nat} {c : Int × Int}
    (hc : c ∈ makeAngleAttackA game piece dirs fuel) : AttackedSq game piece c := by
  unfold makeAngleAttackA at hc
  rcases List.mem_flatMap.mp hc with ⟨d, _, hcd⟩
  exact mem_rayA hcd

theorem mem_pawnMovesA {game : Game} {piece : Piece} {c : Int × Int}
    (hc : c ∈ pawnMovesA game piece) : AttackedSq game piece c := by
  unfold pawnMovesA at hc
  rcases List.mem_append.mp hc with h1 | h2
  · rcases List.mem_append.mp h1 with h3 | h4
    · cases hlp : getPieceAtPosition game.pieces (piece.coord.1 - 1)
          (piece.coord.2 + getDirection game piece) with
      | some lp =>
        rw [hlp] at h3
        dsimp only at h3
        split_ifs at h3
        · exact (mem_makeAttackA h3).2
        · cases h3
      | none =>
        rw [hlp] at h3
        dsimp only at h3
        split_ifs at h3
        · exact (mem_makeAttackA h3).2
        · cases h3
    · cases hrp : getPieceAtPosition game.pieces (piece.coord.1 + 1)
          (piece.coord.2 + getDirection game piece) with
      | some rp =>
        rw [hrp] at h4
        dsimp only at h4
        split_ifs at h4
        · exact (mem_makeAttackA h4).2
        · cases h4
      | none =>
        rw [hrp] at h4
        dsimp only at h4
        split_ifs at h4
        · exact (mem_makeAttackA h4).2
        · cases h4
  · split_ifs at h2
    · rcases List.mem_append.mp h2 with h5 | h6
      · exact (mem_makeAttackA h5).2
      · exact (mem_makeAttackA h6).2
    · rcases List.mem_append.mp h2 with h5 | h6
      · exact (mem_makeAttackA h5).2
      · cases h6
    · cases h2

theorem mem_knightMovesA {game : Game} {piece : Piece} {c : Int × Int}
    (hc : c ∈ knightMovesA game piece) : AttackedSq game piece c := by
  unfold knightMovesA at hc
  rcases List.mem_flatMap.mp hc with ⟨pr, _, hcd⟩
  rcases List.mem_append.mp hcd with h1 | h4
  · rcases List.mem_append.mp h1 with h2 | h3
    · rcases List.mem_append.mp h2 with h5 | h6
      · exact (mem_makeAttackA h5).2
      · exact (mem_makeAttackA h6).2
    · exact (mem_makeAttackA h3).2
  · exact (mem_makeAttackA h4).2

theorem mem_getValidMovesA {game : Game} {piece : Piece} {c : Int × Int}
    (hc : c ∈ getValidMovesA game piece) : AttackedSq game piece c := by
  unfold getValidMovesA at hc
  cases hty : piece.type <;> rw [hty] at hc
  case pawn => exact mem_pawnMovesA hc
  case queen => exact mem_makeAngleAttackA hc
  case rook => exact mem_makeAngleAttackA hc
  case bishop => exact mem_makeAngleAttackA hc
  case king => exact mem_makeAngleAttackA hc
  case knight => exact mem_knightMovesA hc

theorem moved_filter_false {game : Game} {x : Piece}
    (hcoords : List.Pairwise (fun a b => a.coord ≠ b.coord) game.pieces)
    (hx : x ∈ game.pieces) :
    (match getPieceAtPosition game.pieces x.coord.1 x.coord.2 with
     | none => true
     | some y => y.id != x.id || y.type != x.type) = false := by
  rw [getPieceAtPosition_self hcoords hx]
  simp

theorem movedPiecesOf_append_kept (game S : Game) (kept tail : List Piece)
    (hS : S.pieces = kept ++ tail)
    (hcoords : List.Pairwise (fun a b => a.coord ≠ b.coord) game.pieces)
    (hsub : ∀ x ∈ kept, x ∈ game.pieces) :
    movedPiecesOf game S = tail.filter (fun x =>
      match getPieceAtPosition game.pieces x.coord.1 x.coord.2 with
      | none => true
      | some y => y.id != x.id || y.type != x.type) := by
  unfold movedPiecesOf
  rw [hS, List.filter_append]
  have hnil : kept.filter (fun x =>
      match getPieceAtPosition game.pieces x.coord.1 x.coord.2 with
      | none => true
      | some y => y.id != x.id || y.type != x.type) = [] := by
    apply List.filter_eq_nil_iff.mpr
    intro x hx
    rw [moved_filter_false hcoords (hsub x hx)]
    simp
  rw [hnil, List.nil_append]

theorem moved_pred_true (q : Piece) {game : Game} {piece : Piece}
    (hids : List.Pairwise (fun a b => a.id ≠ b.id) game.pieces)
    (hmem : piece ∈ game.pieces)
    (hfr : hittingFriendlyB game piece q.coord.1 q.coord.2 = false)
    (hqid : q.id = piece.id) :
    (match getPieceAtPosition game.pieces q.coord.1 q.coord.2 with
     | none => true
     | some y => y.id != q.id || y.type != q.type) = true := by
  cases ho : getPieceAtPosition game.pieces q.coord.1 q.coord.2 with
  | none => rfl
  | some o =>
    obtain ⟨homem, _, _⟩ := getPieceAtPosition_mem ho
    unfold hittingFriendlyB at hfr
    rw [ho] at hfr
    have hco : o.color ≠ piece.color := by simpa using hfr
    have hne : o ≠ piece := fun he => hco (he ▸ rfl)
    have hid : o.id ≠ piece.id := ids_ne_of_pairwise hids homem hmem hne
    simp [hqid, hid]

theorem replayIsValid_pushed {game S : Game} {piece : Piece} {c : Int × Int}
    {ms : List (Int × Int)}
    (hids : List.Pairwise (fun a b => a.id ≠ b.id) game.pieces)
    (hmem : piece ∈ game.pieces)
    (hupd : updatePiece game { piece with coord := c } = some S)
    (hms : getValidMovesN game piece = some ms) (hc : c ∈ ms) :
    replayIsValid game S { piece with coord := c, moveCount := piece.moveCount + 1 } =
      some true := by
  unfold replayIsValid
  have hmp : ({ piece with coord := c, moveCount := piece.moveCount + 1 - 1 } : Piece) =
      { piece with coord := c } := by
    have h1 : piece.moveCount + 1 - 1 = piece.moveCount := by omega
    rw [h1]
  dsimp only
  rw [hmp, hupd]
  dsimp only
  rw [if_pos rfl, find?_id_self hids hmem]
  dsimp only
  rw [hms]
  simp only [Option.map_some', Option.some.injEq]
  rw [List.any_eq_true]
  exact ⟨c, hc, by simp⟩

/-- C1: replay validation round-trip.  For every game state `g` whose pieces
have pairwise distinct ids and pairwise distinct coordinates (invariants of
engine-produced states), every piece `p` of `g` belonging to the side to
move, and every destination `c` in `getValidMoves(g, p)`, applying
`updatePiece(g, {...p, coord: c})` succeeds and yields a state that
`isValidMove(g, ·)` accepts. -/
theorem claim_C1_replay_roundtrip (game : Game) (piece : Piece) (ms : List (Int × Int))
    (c : Int × Int)
    (hids : List.Pairwise (fun a b => a.id ≠ b.id) game.pieces)
    (hcoords : List.Pairwise (fun a b => a.coord ≠ b.coord) game.pieces)
    (hmem : piece ∈ game.pieces)
    (_hturn : piece.color = (if game.moveCount % 2 = 0 then Color.white else Color.black))
    (hms : getValidMoves game piece false = some ms)
    (hc : c ∈ ms) :
    ∃ S, updatePiece game { piece with coord := c } = some S ∧
      isValidMove (some game) (some S) = some true := by
  have hmsN : getValidMovesN game piece = some ms := hms
  obtain ⟨hin, hfr, hsim⟩ := mem_getValidMovesN hmsN hc
  unfold simulatedCheck at hsim
  rw [Prod.mk.eta] at hsim
  rcases Option.bind_eq_some.mp hsim with ⟨S, hupd, hchk⟩
  have hupd0 := hupd
  refine ⟨S, hupd, ?_⟩
  have hfindp : game.pieces.find? (fun x => x.id == piece.id) = some piece :=
    find?_id_self hids hmem
  have hsubN : ∀ x ∈ game.pieces.filter (fun x =>
      (x.coord.1 != c.1 || x.coord.2 != c.2) && x.id != piece.id), x ∈ game.pieces :=
    fun x hx => (List.mem_filter.mp hx).1
  by_cases hcastle : piece.type = PieceType.king ∧ (c.1 - piece.coord.1).natAbs = 2
  · -- castling branch
    unfold updatePiece at hupd
    rw [hfindp] at hupd
    dsimp only at hupd
    rw [if_pos hcastle] at hupd
    cases hrook : game.pieces.find? (fun x =>
        x.type == PieceType.rook &&
        x.color == piece.color &&
        x.coord.2 == c.2 &&
        x.moveCount == 0 &&
        (x.coord.1 - piece.coord.1).sign == (c.1 - piece.coord.1).sign) with
    | none =>
      rw [hrook] at hupd
      cases hupd
    | some rook =>
      rw [hrook] at hupd
      dsimp only at hupd
      injection hupd with hupd
      have hmoved := movedPiecesOf_append_kept game S
        (game.pieces.filter (fun x =>
          (x.coord.1 != c.1 || x.coord.2 != c.2) && x.id != piece.id && x.id != rook.id))
        [{ piece with coord := c, moveCount := piece.moveCount + 1 },
         { rook with
            moveCount := rook.moveCount + 1
            coord := (piece.coord.1 + (c.1 - piece.coord.1).sign, c.2) }]
        (by rw [← hupd]) hcoords (fun x hx => (List.mem_filter.mp hx).1)
      have hK : (match getPieceAtPosition game.pieces c.1 c.2 with
          | none => true
          | some y => y.id != piece.id || y.type != piece.type) = true :=
        moved_pred_true { piece with coord := c, moveCount := piece.moveCount + 1 }
          hids hmem hfr rfl
      rw [List.filter_cons, if_pos hK] at hmoved
      unfold isValidMove
      dsimp only
      cases hR : ([{ rook with
          moveCount := rook.moveCount + 1
          coord := (piece.coord.1 + (c.1 - piece.coord.1).sign, c.2) }].filter
            (fun x =>
              match getPieceAtPosition game.pieces x.coord.1 x.coord.2 with
              | none => true
              | some y => y.id != x.id || y.type != x.type)) with
      | nil =>
        rw [hR] at hmoved
        rw [hmoved]
        dsimp only
        exact replayIsValid_pushed hids hmem hupd0 hmsN hc
      | cons r rest =>
        have hsub2 := List.filter_sublist (l := [{ rook with
          moveCount := rook.moveCount + 1
          coord := (piece.coord.1 + (c.1 - piece.coord.1).sign, c.2) }])
          (p := fun x =>
              match getPieceAtPosition game.pieces x.coord.1 x.coord.2 with
              | none => true
              | some y => y.id != x.id || y.type != x.type)
        rw [hR] at hsub2 hmoved
        rcases List.sublist_singleton.mp hsub2 with h2 | h2
        · cases h2
        · injection h2 with h2a h2b
          subst h2a
          subst h2b
          rw [hmoved]
          dsimp only
          rw [List.find?_cons_of_pos _ (by simp [hcastle.1])]
          dsimp only
          exact replayIsValid_pushed hids hmem hupd0 hmsN hc
  · -- non-castling branches
    have hK : (match getPieceAtPosition game.pieces c.1 c.2 with
        | none => true
        | some y => y.id != piece.id || y.type != piece.type) = true :=
      moved_pred_true { piece with coord := c, moveCount := piece.moveCount + 1 }
        hids hmem hfr rfl
    cases hep : getEnPassantPiece game piece c.1 c.2 with
    | none =>
      have heq := updatePiece_normal_eq game { piece with coord := c } 1 piece
        hfindp hcastle hep
      have hSN := Option.some.inj (heq.symm.trans hupd0)
      have hmoved := movedPiecesOf_append_kept game S
        (game.pieces.filter (fun x =>
          (x.coord.1 != c.1 || x.coord.2 != c.2) && x.id != piece.id))
        [{ piece with coord := c, moveCount := piece.moveCount + 1 }]
        (by rw [← hSN]) hcoords hsubN
      rw [List.filter_cons, if_pos hK, List.filter_nil] at hmoved
      unfold isValidMove
      dsimp only
      rw [hmoved]
      dsimp only
      exact replayIsValid_pushed hids hmem hupd0 hmsN hc
    | some ep =>
      have heq := updatePiece_ep_eq game { piece with coord := c } 1 piece ep
        hfindp hcastle hep
      have hSN := Option.some.inj (heq.symm.trans hupd0)
      have hmoved := movedPiecesOf_append_kept game S
        (game.pieces.filter (fun x =>
          x.id != piece.id && x.id != ep.id))
        [{ piece with coord := c, moveCount := piece.moveCount + 1 }]
        (by rw [← hSN]) hcoords (fun x hx => (List.mem_filter.mp hx).1)
      rw [List.filter_cons, if_pos hK, List.filter_nil] at hmoved
      unfold isValidMove
      dsimp only
      rw [hmoved]
      dsimp only
      exact replayIsValid_pushed hids hmem hupd0 hmsN hc

theorem claim_C1_witness :
    getValidMoves w1Game w1King false =
      some [(5, 0), (5, 1), (4, 1), (3, 1), (3, 0)] ∧
    ∃ S, updatePiece w1Game { w1King with coord := (5, 0) } = some S ∧
      isValidMove (some w1Game) (some S) = some true :=
  ⟨by decide,
   claim_C1_replay_roundtrip w1Game w1King
     [(5, 0), (5, 1), (4, 1), (3, 1), (3, 0)] (5, 0)
     (by decide) (by decide) (by decide) (by decide) (by decide) (by decide)⟩

/-- C2 (counterexample): `updatePiece` does not always return a state with at
most one piece per coordinate, and the en passant branch does not remove
pieces at the destination square.  In `cx2Game` (whose pieces occupy pairwise
distinct squares) the white pawn captures en passant at (1, 5); the branch
removes only the mover and the captured pawn, so the black knight already on
(1, 5) remains and the result has two pieces on that square. -/
theorem claim_C2_counterexample :
    List.Pairwise (fun a b => a.coord ≠ b.coord) cx2Game.pieces ∧
    (updatePiece cx2Game cx2Piece).map
      (fun S => decide (List.Pairwise (fun a b => a.coord ≠ b.coord) S.pieces)) =
      some false := by
  decide

/-- C2 (amended): when the input state has at most one piece per coordinate
and the update takes the normal branch (the moved piece is not a king moving
two files, and no en passant piece is detected), the state returned by
`updatePiece` has at most one piece per coordinate, because the normal branch
removes every piece at the destination square before inserting the updated
piece.  (The en passant and castling branches do not remove destination-square
occupants, so the invariant is not preserved unconditionally; see the
counterexample.) -/
theorem claim_C2_normal_single_occupancy (game : Game) (piece : Piece) (mc : Int)
    (old : Piece) (S : Game)
    (hnd : List.Pairwise (fun a b => a.coord ≠ b.coord) game.pieces)
    (hfind : game.pieces.find? (fun x => x.id == piece.id) = some old)
    (hnc : ¬(piece.type = PieceType.king ∧ (piece.coord.1 - old.coord.1).natAbs = 2))
    (hep : getEnPassantPiece game old piece.coord.1 piece.coord.2 = none)
    (hupd : updatePiece game piece mc = some S) :
    List.Pairwise (fun a b => a.coord ≠ b.coord) S.pieces := by
  rw [updatePiece_normal_eq game piece mc old hfind hnc hep] at hupd
  injection hupd with hupd
  subst hupd
  rw [List.pairwise_append]
  refine ⟨hnd.sublist (List.filter_sublist _), List.pairwise_singleton _ _, ?_⟩
  intro a ha b hb
  rcases List.mem_filter.mp ha with ⟨_, hpred⟩
  rw [List.mem_singleton] at hb
  subst hb
  simp only [Bool.and_eq_true, Bool.or_eq_true, bne_iff_ne] at hpred
  intro heq
  rcases hpred.1 with hne1 | hne2
  · exact hne1 (congrArg Prod.fst heq)
  · exact hne2 (congrArg Prod.snd heq)

theorem claim_C2_witness :
    updatePiece w2Game w2Piece = some w2Out ∧
    List.Pairwise (fun a b => a.coord ≠ b.coord) w2Out.pieces :=
  ⟨by decide,
   claim_C2_normal_single_occupancy w2Game w2Piece 1 w2Old w2Out
     (by decide) (by decide) (by decide) (by decide) (by decide)⟩

/-- C3: self-check filtering.  For every game state `g`, piece `p`, and
destination `c` returned by normal-mode `getValidMoves(g, p)`, the simulation
`updatePiece(g, {...p, coord: c})` succeeds and
`isInCheck(·, p.color)` on its result is false: a destination whose play
would leave the mover's own king in check is never returned. -/
theorem claim_C3_self_check_filtering (game : Game) (piece : Piece)
    (ms : List (Int × Int)) (c : Int × Int)
    (hms : getValidMoves game piece false = some ms) (hc : c ∈ ms) :
    ∃ g2, updatePiece game { piece with coord := c } = some g2 ∧
      isInCheck g2 piece.color = some false := by
  have hmsN : getValidMovesN game piece = some ms := hms
  obtain ⟨_, _, hsim⟩ := mem_getValidMovesN hmsN hc
  unfold simulatedCheck at hsim
  rw [Prod.mk.eta] at hsim
  exact Option.bind_eq_some.mp hsim

theorem claim_C3_witness :
    getValidMoves w3Game w3King false =
      some [(5, 0), (5, 1), (4, 1), (3, 1), (3, 0)] ∧
    ∃ g2, updatePiece w3Game { w3King with coord := (3, 1) } = some g2 ∧
      isInCheck g2 w3King.color = some false :=
  ⟨by decide,
   claim_C3_self_check_filtering w3Game w3King
     [(5, 0), (5, 1), (4, 1), (3, 1), (3, 0)] (3, 1) (by decide) (by decide)⟩

/-- C4: en passant detection.  `getEnPassantPiece(g, p, x, y)` returns the
piece at `(x, y - direction)` exactly when `p` is a pawn, `g.prevState`
exists, a piece occupies `(x, y - direction)` in `g`, a pawn of the color
opposite `p`'s occupied `(x, y + direction)` in `g.prevState`, and those two
pieces share the same id (`direction` being +1 for white and -1 for black);
otherwise it returns nothing. -/
theorem claim_C4_en_passant_detection (game : Game) (piece : Piece) (x y : Int)
    (q : Piece) :
    getEnPassantPiece game piece x y = some q ↔
      (piece.type = PieceType.pawn ∧
       ∃ prevSt, game.prevState = some prevSt ∧
         getPieceAtPosition game.pieces x (y - getDirection game piece) = some q ∧
         ∃ pv, getPieceAtPosition prevSt.pieces x (y + getDirection game piece) = some pv ∧
           pv.type = PieceType.pawn ∧ pv.color ≠ piece.color ∧ q.id = pv.id) := by
  unfold getEnPassantPiece
  cases hps : game.prevState with
  | none => simp
  | some prevSt =>
    simp only [Option.some.injEq, exists_eq_left']
    by_cases hp : piece.type = PieceType.pawn
    · simp only [hp, if_true, true_and]
      cases hcur : getPieceAtPosition game.pieces x (y - getDirection game piece) with
      | none => simp [hcur]
      | some cu =>
        cases hpv : getPieceAtPosition prevSt.pieces x (y + getDirection game piece) with
        | none => simp [hcur, hpv]
        | some pv =>
          simp only [hcur, hpv, Option.some.injEq]
          split_ifs with hcond
          · constructor
            · intro h
              injection h with h
              subst h
              exact ⟨rfl, pv, rfl, hcond.2.1, hcond.2.2, hcond.1⟩
            · rintro ⟨rfl, pv2, rfl, _, _, _⟩
              rfl
          · constructor
            · intro h
              exact h.elim
            · rintro ⟨rfl, pv2, rfl, hty, hco, hid⟩
              exact absurd ⟨hid, hty, hco⟩ hcond
    · simp [hp]

/-- C5: castling eligibility.  For a king piece and a rook piece of a game
state, `canCastle` is true exactly when both have never moved, no piece
occupies any square strictly between their files on the king's rank, and the
king is not currently vulnerable.  In particular the right-hand side imposes
no condition on the king's transit or destination squares being attacked. -/
theorem claim_C5_castling_eligibility (game : Game) (king rook : Piece)
    (hk : king.type = PieceType.king) (hr : rook.type = PieceType.rook)
    (_hkmem : king ∈ game.pieces) (_hrmem : rook ∈ game.pieces) :
    canCastle game king rook = true ↔
      (king.moveCount = 0 ∧ rook.moveCount = 0 ∧
       (∀ x ∈ game.pieces, ¬(x.coord.2 = king.coord.2 ∧
          min king.coord.1 rook.coord.1 < x.coord.1 ∧
          x.coord.1 < max king.coord.1 rook.coord.1)) ∧
       isVulnerable game king = false) := by
  unfold canCastle castlePrecond
  simp [hk, hr, List.length_eq_zero, List.filter_eq_nil_iff, Bool.not_eq_true',
        and_assoc]

theorem claim_C5_witness :
    canCastle w5Game w5King w5Rook = true ↔
      (w5King.moveCount = 0 ∧ w5Rook.moveCount = 0 ∧
       (∀ x ∈ w5Game.pieces, ¬(x.coord.2 = w5King.coord.2 ∧
          min w5King.coord.1 w5Rook.coord.1 < x.coord.1 ∧
          x.coord.1 < max w5King.coord.1 w5Rook.coord.1)) ∧
       isVulnerable w5Game w5King = false) :=
  claim_C5_castling_eligibility w5Game w5King w5Rook rfl rfl (by decide) (by decide)

/-- C7: initial layout.  `makeGame()` has game move count 0 and exactly 32
pieces, 16 of each color; every piece sits in rows 0-1 (white) or rows 6-7
(black) with move count 0 and id equal to its flattened board index
`coord[0] + 8 * coord[1]`; rows 0 and 7 hold, left to right,
rook/knight/bishop/king/queen/bishop/knight/rook, and rows 1 and 6 hold
pawns. -/
theorem claim_C7_initial_layout :
    makeGame.moveCount = 0 ∧
    makeGame.pieces.length = 32 ∧
    (makeGame.pieces.filter (fun p => p.color == Color.white)).length = 16 ∧
    (makeGame.pieces.filter (fun p => p.color == Color.black)).length = 16 ∧
    (makeGame.pieces.all (fun p =>
      p.moveCount == 0 &&
      p.id == p.coord.1 + 8 * p.coord.2 &&
      ((p.coord.2 == 0 || p.coord.2 == 1) && p.color == Color.white ||
       (p.coord.2 == 6 || p.coord.2 == 7) && p.color == Color.black))) = true ∧
    ((List.range 8).map (fun x => (getPieceAtPosition makeGame.pieces x 0).map Piece.type)) =
      [some .rook, some .knight, some .bishop, some .king,
       some .queen, some .bishop, some .knight, some .rook] ∧
    ((List.range 8).map (fun x => (getPieceAtPosition makeGame.pieces x 7).map Piece.type)) =
      [some .rook, some .knight, some .bishop, some .king,
       some .queen, some .bishop, some .knight, some .rook] ∧
    ((List.range 8).all (fun x =>
      (getPieceAtPosition makeGame.pieces x 1).map Piece.type == some PieceType.pawn)) = true ∧
    ((List.range 8).all (fun x =>
      (getPieceAtPosition makeGame.pieces x 6).map Piece.type == some PieceType.pawn)) = true := by
  decide

/-- C8: attacks-only enumeration.  Every coordinate produced by
`getValidMoves(g, p, true)` is in bounds and occupied in `g` by a piece of
the color opposite `p`'s; empty-square destinations never appear. -/
theorem claim_C8_attacks_only (game : Game) (piece : Piece)
    (ms : List (Int × Int)) (c : Int × Int)
    (hms : getValidMoves game piece true = some ms) (hc : c ∈ ms) :
    (0 ≤ c.1 ∧ 0 ≤ c.2 ∧ c.1 < 8 ∧ c.2 < 8) ∧
    ∃ hit, getPieceAtPosition game.pieces c.1 c.2 = some hit ∧
      hit.color ≠ piece.color := by
  have hmsA : ms = getValidMovesA game piece := by
    have : getValidMoves game piece true = some (getValidMovesA game piece) := rfl
    rw [this] at hms
    exact (Option.some.inj hms).symm
  subst hmsA
  obtain ⟨hin, hocc⟩ := mem_getValidMovesA hc
  refine ⟨?_, hocc⟩
  unfold inBoundsB at hin
  simpa [Bool.and_eq_true, decide_eq_true_eq, and_assoc] using hin

theorem claim_C8_witness :
    getValidMoves w8Game w8Rook true = some [(0, 3)] ∧
    ((0 ≤ (0 : Int) ∧ 0 ≤ (3 : Int) ∧ (0 : Int) < 8 ∧ (3 : Int) < 8) ∧
     ∃ hit, getPieceAtPosition w8Game.pieces 0 3 = some hit ∧
       hit.color ≠ w8Rook.color) :=
  ⟨by decide,
   claim_C8_attacks_only w8Game w8Rook [(0, 3)] (0, 3) (by decide) (by decide)⟩

/-- C10: frame property of a normal (non-castling, non-en-passant)
`updatePiece`.  Every piece of the input whose id differs from the updated
piece's and whose coordinate differs from the destination appears in the
output unchanged (the very same record, hence same id, type, color, coord,
and moveCount), and every piece of the output carries an id already present
in the input. -/
theorem claim_C10_frame_property (game : Game) (piece : Piece) (mc : Int)
    (old : Piece) (S : Game)
    (hfind : game.pieces.find? (fun x => x.id == piece.id) = some old)
    (hnc : ¬(piece.type = PieceType.king ∧ (piece.coord.1 - old.coord.1).natAbs = 2))
    (hep : getEnPassantPiece game old piece.coord.1 piece.coord.2 = none)
    (hupd : updatePiece game piece mc = some S) :
    (∀ x ∈ game.pieces, x.id ≠ piece.id → x.coord ≠ piece.coord → x ∈ S.pieces) ∧
    (∀ y ∈ S.pieces, ∃ x ∈ game.pieces, x.id = y.id) := by
  rw [updatePiece_normal_eq game piece mc old hfind hnc hep] at hupd
  injection hupd with hupd
  subst hupd
  constructor
  · intro x hx hid hcoord
    apply List.mem_append_left
    apply List.mem_filter.mpr
    refine ⟨hx, ?_⟩
    simp only [Bool.and_eq_true, Bool.or_eq_true, bne_iff_ne]
    refine ⟨?_, hid⟩
    by_cases h1 : x.coord.1 = piece.coord.1
    · right
      intro h2
      exact hcoord (Prod.ext h1 h2)
    · left
      exact h1
  · intro y hy
    rcases List.mem_append.mp hy with hy1 | hy2
    · exact ⟨y, (List.mem_filter.mp hy1).1, rfl⟩
    · rw [List.mem_singleton] at hy2
      subst hy2
      refine ⟨old, List.mem_of_find?_eq_some hfind, ?_⟩
      have := List.find?_some hfind
      simpa using this

theorem claim_C10_witness :
    updatePiece w10Game w10Piece = some w10Out ∧
    ((∀ x ∈ w10Game.pieces, x.id ≠ w10Piece.id → x.coord ≠ w10Piece.coord →
        x ∈ w10Out.pieces) ∧
     (∀ y ∈ w10Out.pieces, ∃ x ∈ w10Game.pieces, x.id = y.id)) :=
  ⟨by decide,
   claim_C10_frame_property w10Game w10Piece 1 w10Old w10Out
     (by decide) (by decide) (by decide) (by decide)⟩

theorem filterThrow_total {α : Type} {f : α → Option Bool} {g : α → Bool}
    {l : List α} (h : ∀ a ∈ l, f a = some (g a)) :
    filterThrow f l = some (l.filter g) := by
  induction l with
  | nil => rfl
  | cons a t ih =>
    unfold filterThrow
    rw [h a (List.mem_cons_self a t),
        ih (fun b hb => h b (List.mem_cons_of_mem a hb))]
    cases hg : g a <;> simp [List.filter_cons, hg]

theorem getVulnerabilitiesFuel_succ (n : Nat) (game : Game) (piece : Piece) :
    getVulnerabilitiesFuel (n + 1) game piece = some (getVulnerabilities game piece) := by
  unfold getVulnerabilitiesFuel getVulnerabilities
  apply filterThrow_total
  intro a _
  cases h : (a.color != piece.color) <;> simp [h, attackEnumFuel]

theorem isVulnerableFuel_succ (n : Nat) (game : Game) (piece : Piece) :
    isVulnerableFuel (n + 1) game piece = some (isVulnerable game piece) := by
  unfold isVulnerableFuel
  rw [getVulnerabilitiesFuel_succ]
  rfl

theorem isInCheckFuel_succ (n : Nat) (game : Game) (color : Color) :
    isInCheckFuel (n + 1) game color = isInCheck game color := by
  unfold isInCheckFuel isInCheck
  cases hf : game.pieces.find? (fun x => x.color == color && x.type == PieceType.king) with
  | some king =>
    dsimp only
    rw [isVulnerableFuel_succ]
  | none => rfl

theorem canCastleFuel_succ (n : Nat) (game : Game) (king rook : Piece) :
    canCastleFuel (n + 1) game king rook = some (canCastle game king rook) := by
  unfold canCastleFuel canCastle
  by_cases h : castlePrecond game king rook = true
  · rw [if_pos h, isVulnerableFuel_succ, h]
    simp
  · rw [if_neg h]
    have hf : castlePrecond game king rook = false := by
      simpa using h
    simp [hf]

theorem simulatedCheckFuel_succ (n : Nat) (game : Game) (piece : Piece) :
    simulatedCheckFuel (n + 1) game piece = simulatedCheck game piece := by
  funext x y
  unfold simulatedCheckFuel simulatedCheck
  cases h : updatePiece game { piece with coord := (x, y) } with
  | none => rfl
  | some g2 => simp [h, isInCheckFuel_succ]

/-- C9: bounded depth of the check-detection recursion.  Modelling the
mutual recursion of `getValidMoves` / `isInCheck` with an explicit activation
budget (`getValidMovesFuel`), a budget of 2 — the normal-mode activation plus
the one attack-mode activation its self-check simulations and castling tests
open — already computes the same result as the (total, structurally defined)
`getValidMoves`, for every state, piece, mode, and any larger budget: the
attack-only branch performs no recursive call (it never invokes `updatePiece`
or `isInCheck`), so the recursion always terminates. -/
theorem claim_C9_termination_depth (fuel : Nat) (game : Game) (piece : Piece)
    (attacksOnly : Bool) :
    getValidMovesFuel (fuel + 2) game piece attacksOnly =
      getValidMoves game piece attacksOnly := by
  cases attacksOnly with
  | true => rfl
  | false =>
    show getValidMovesGen game piece (simulatedCheckFuel (fuel + 1) game piece)
        (fun rook => canCastleFuel (fuel + 1) game piece rook) =
      getValidMoves game piece false
    rw [simulatedCheckFuel_succ]
    have hcastle : (fun rook => canCastleFuel (fuel + 1) game piece rook) =
        (fun rook => some (canCastle game piece rook)) :=
      funext (fun rook => canCastleFuel_succ fuel game piece rook)
    rw [hcastle]
    rfl

/-- C6 (counterexample): `isValidMove` does not reject every state containing
a piece without a 2-element coord.  The structural gate checks only
`Array.isArray(x.coord)`, never the length: the submitted state `cx6State`
moves the rook of `cx6Prev` legally from (0, 0) to (0, 1) but carries the
3-element coord array `[0, 1, 99]`, and the validator accepts it, because the
replay preserves the submitted coord array verbatim and the byte-compare
succeeds. -/
theorem claim_C6_counterexample :
    rawIsValidMove (some cx6Prev) (some cx6State) = some true ∧
    ((cx6State.pieces.getD []).map RawPiece.coord) =
      [some [4, 0], some [4, 7], some [0, 1, 99]] := by
  decide

/-- C6 (amended): structural validation in `isValidMove`.  For every pair of
inputs, `isValidMove(prevState, newState)` returns false whenever `prevState`
or `newState` is absent, `newState.pieces` is not an array, or some element
of `newState.pieces` lacks a recognized type, an array coord, a recognized
color (black or white), or a defined id.  (The source checks
`Array.isArray(x.coord)` only — not that the array has 2 elements; see the
counterexample.) -/
theorem claim_C6_structural_validation (prev st : Option RawGame)
    (h : prev = none ∨ st = none ∨
         (∃ g, st = some g ∧ g.pieces = none) ∨
         (∃ g gp x, st = some g ∧ g.pieces = some gp ∧ x ∈ gp ∧
            (¬ x.type ∈ RAW_PIECE_NAMES ∨ x.coord = none ∨
             (x.color ≠ "black" ∧ x.color ≠ "white") ∨ x.id = none))) :
    rawIsValidMove prev st = some false := by
  rcases h with rfl | rfl | ⟨g, rfl, hp⟩ | ⟨g, gp, x, rfl, hgp, hxmem, hbad⟩
  · cases st with
    | none => rfl
    | some s => rfl
  · cases prev with
    | none => rfl
    | some p => rfl
  · cases prev with
    | none => rfl
    | some p =>
      unfold rawIsValidMove
      dsimp only
      rw [hp]
  · cases prev with
    | none => rfl
    | some p =>
      unfold rawIsValidMove
      dsimp only
      rw [hgp]
      dsimp only
      rw [if_neg]
      intro hall
      have hx := List.all_eq_true.mp hall x hxmem
      simp only [Bool.and_eq_true, List.contains_iff_exists_mem_beq,
        Option.isSome_iff_exists, beq_iff_eq] at hx
      obtain ⟨⟨⟨hty, hco⟩, hcl⟩, hid⟩ := hx
      rcases hbad with hb | hb | hb | hb
      · rcases hty with ⟨t, htm, rfl⟩
        exact hb htm
      · rcases hco with ⟨v, hv⟩
        rw [hb] at hv
        cases hv
      · rcases hcl with ⟨col, hcolm, rfl⟩
        simp only [List.mem_cons, List.mem_singleton, List.not_mem_nil, or_false] at hcolm
        rcases hcolm with h1 | h1
        · exact hb.1 h1
        · exact hb.2 h1
      · rcases hid with ⟨v, hv⟩
        rw [hb] at hv
        cases hv

theorem claim_C6_witness : rawIsValidMove none none = some false :=
  claim_C6_structural_validation none none (Or.inl rfl)
